import Mathlib

/-!
Verification of the tool-mediated task-mutation orchestration layer of a
multi-tenant todo backend.

The development shallowly embeds, from the Python source:
  * `backend/app/mcp/tools.py`   — the six tool handlers, the dispatch table
    and `execute_tool` (identity injection, unknown-tool and exception
    boundaries);
  * `backend/app/agent/runner.py` — `_run_agent_direct`, the bounded
    generate/dispatch conversation loop;
  * `backend/app/routers/chatkit.py` — `stream_chat_response`, the
    incremental event emitter.

Modelling conventions:
  * the SQL database is a `Store` value (lists of task, tag and task-tag
    rows in insertion order); a `select ... where` chain is a `List.filter`,
    `.first()` is `List.head?`, a commit of a changed row is a map over the
    row list keyed by primary key;
  * `datetime` instants are abstract naturals; `datetime.utcnow()` is an
    explicit `now` parameter threaded to each call (wall time is outside
    the program); ISO date strings parse to the same scale through an
    order-faithful mixed-radix encoding;
  * a parsed JSON argument object is a `Bag` (association list); Python's
    keyword-argument binding of `handler(**arguments)` is modelled by a
    per-tool binder that fails (the `TypeError` caught by `execute_tool`'s
    `except` clause) on an unexpected or missing key;
  * `uuid4` identifiers come from a counter carried by the store.
-/

namespace TodoCore

/-- Leaf values a model-supplied JSON argument object can hold: strings,
integers, booleans and lists of strings (the only shapes the six tool
schemas declare). -/
inductive Arg where
  | str (s : String)
  | int (n : Int)
  | bool (b : Bool)
  | strList (xs : List String)
deriving DecidableEq, Repr

/-- A raw argument bag: the parsed JSON object handed to `execute_tool`,
as an association list of field name to value. -/
def Bag := List (String × Arg)
deriving DecidableEq, Repr

instance : Append Bag := ⟨List.append⟩

/-- First-match lookup, the dictionary read `arguments[k]`. -/
def Bag.lookup (b : Bag) (k : String) : Option Arg :=
  match b with
  | [] => none
  | (k', v) :: rest => if k' = k then some v else Bag.lookup rest k

/-- The dictionary write `arguments["user_id"] = user_id` performed by
`execute_tool`: replace the first `user_id` entry in place, or append one. -/
def Bag.inject (b : Bag) (uid : String) : Bag :=
  match b with
  | [] => [("user_id", Arg.str uid)]
  | (k, v) :: rest =>
      if k = "user_id" then ("user_id", Arg.str uid) :: rest
      else (k, v) :: Bag.inject rest uid

/-- The identity-stripping comprehension of the runner,
`\x7bk: v for k, v in arguments.items() if k != "user_id"\x7d`. -/
def Bag.eraseUserId : Bag → Bag
  | [] => []
  | (k, v) :: rest =>
      if k = "user_id" then Bag.eraseUserId rest else (k, v) :: Bag.eraseUserId rest

/-- Keyword-binding key check: every key of the bag must name a declared
parameter of the handler, else `handler(**arguments)` raises `TypeError`. -/
def Bag.keysOK (params : List String) : Bag → Bool
  | [] => true
  | (k, _) :: rest => params.contains k && Bag.keysOK params rest

/-- Structured results: the JSON-like dictionaries the tool handlers
return (`\x7b"success": ..., ...\x7d`). -/
inductive Value where
  | null
  | bool (b : Bool)
  | int (n : Int)
  | str (s : String)
  | list (xs : List Value)
  | obj (fields : List (String × Value))
deriving Repr

/-- First-match field lookup inside an object result. -/
def Value.getField (v : Value) (k : String) : Option Value :=
  match v with
  | .obj fields => go fields
  | _ => none
where go : List (String × Value) → Option Value
  | [] => none
  | (k', v') :: rest => if k' = k then some v' else go rest

mutual

/-- Decidable equality of result values (structural). -/
def Value.beq : Value → Value → Bool
  | .null, .null => true
  | .bool a, .bool b => a = b
  | .int a, .int b => a = b
  | .str a, .str b => a = b
  | .list a, .list b => Value.beqList a b
  | .obj a, .obj b => Value.beqFields a b
  | _, _ => false

def Value.beqList : List Value → List Value → Bool
  | [], [] => true
  | a :: as, b :: bs => Value.beq a b && Value.beqList as bs
  | _, _ => false

def Value.beqFields : List (String × Value) → List (String × Value) → Bool
  | [], [] => true
  | (ka, va) :: as, (kb, vb) :: bs => ka = kb && Value.beq va vb && Value.beqFields as bs
  | _, _ => false

end

mutual

theorem Value.beq_refl : ∀ v : Value, Value.beq v v = true
  | .null => rfl
  | .bool b => by simp [Value.beq]
  | .int n => by simp [Value.beq]
  | .str s => by simp [Value.beq]
  | .list xs => by simp [Value.beq, Value.beqList_refl xs]
  | .obj fs => by simp [Value.beq, Value.beqFields_refl fs]

theorem Value.beqList_refl : ∀ xs : List Value, Value.beqList xs xs = true
  | [] => rfl
  | x :: xs => by simp [Value.beqList, Value.beq_refl x, Value.beqList_refl xs]

theorem Value.beqFields_refl : ∀ fs : List (String × Value), Value.beqFields fs fs = true
  | [] => rfl
  | (k, v) :: fs => by simp [Value.beqFields, Value.beq_refl v, Value.beqFields_refl fs]

end

mutual

theorem Value.eq_of_beq : ∀ {a b : Value}, Value.beq a b = true → a = b
  | .null, .null, _ => rfl
  | .bool _, .bool _, h => by simpa [Value.beq] using congrArg Value.bool (by simpa [Value.beq] using h)
  | .int _, .int _, h => by exact congrArg Value.int (by simpa [Value.beq] using h)
  | .str _, .str _, h => by exact congrArg Value.str (by simpa [Value.beq] using h)
  | .list as, .list bs, h => by
      exact congrArg Value.list (Value.eqList_of_beq (by simpa [Value.beq] using h))
  | .obj as, .obj bs, h => by
      exact congrArg Value.obj (Value.eqFields_of_beq (by simpa [Value.beq] using h))

theorem Value.eqList_of_beq : ∀ {as bs : List Value}, Value.beqList as bs = true → as = bs
  | [], [], _ => rfl
  | a :: as, b :: bs, h => by
      have h' := h
      simp only [Value.beqList, Bool.and_eq_true] at h'
      exact congrArg₂ List.cons (Value.eq_of_beq h'.1) (Value.eqList_of_beq h'.2)

theorem Value.eqFields_of_beq :
    ∀ {as bs : List (String × Value)}, Value.beqFields as bs = true → as = bs
  | [], [], _ => rfl
  | (ka, va) :: as, (kb, vb) :: bs, h => by
      have h' := h
      simp only [Value.beqFields, Bool.and_eq_true, decide_eq_true_eq] at h'
      have hk : ka = kb := h'.1.1
      have hv : va = vb := Value.eq_of_beq h'.1.2
      have hs : as = bs := Value.eqFields_of_beq h'.2
      simp [hk, hv, hs]

end

instance : DecidableEq Value := fun a b =>
  if h : Value.beq a b = true then
    isTrue (Value.eq_of_beq h)
  else
    isFalse (fun hab => h (hab ▸ Value.beq_refl a))

/-! ### Task store

Rows of the `tasks`, `tags` and `task_tags` tables, restricted to the
columns the tool layer reads or writes (`remind_at`, `recurrence_end_date`,
`parent_task_id` and the `created_at` columns of tags/links are never
touched by it and are omitted). -/

/-- A `tasks` row (`app/models/task.py`). Instants are abstract naturals. -/
structure Task where
  id : String
  title : String
  completed : Bool
  user_id : String
  created_at : Nat
  updated_at : Nat
  due_date : Option Nat
  priority : Option Int
  recurrence_rule : Option String
deriving DecidableEq, Repr

/-- A `tags` row (`app/models/tag.py`). -/
structure Tag where
  id : String
  name : String
  color : String
  user_id : String
deriving DecidableEq, Repr

/-- A `task_tags` junction row. -/
structure TaskTag where
  task_id : String
  tag_id : String
deriving DecidableEq, Repr

/-- The database reachable through `engine`: row lists in insertion order,
plus a counter standing in for `uuid4` freshness. -/
structure Store where
  tasks : List Task
  tags : List Tag
  taskTags : List TaskTag
  nextId : Nat
deriving DecidableEq, Repr

/-- Fresh primary key (models `uuid4`), together with the bumped store. -/
def Store.freshId (s : Store) : String × Store :=
  ("id-" ++ toString s.nextId, { s with nextId := s.nextId + 1 })

/-- The empty database. -/
def Store.empty : Store := ⟨[], [], [], 0⟩

/-! ### Dates and fuzzy matching -/

/-- Order-faithful encoding of a calendar date into the abstract instant
scale (mixed radix: month < 13, day < 32, 86400 seconds per day). -/
def dateCode (y m d : Nat) : Nat := ((y * 13 + m) * 32 + d) * 86400

/-- Split of a character list on a separator character. -/
def splitOnChar (c : Char) : List Char → List (List Char)
  | [] => [[]]
  | x :: rest =>
      match splitOnChar c rest with
      | [] => [[]]
      | g :: gs => if x = c then [] :: g :: gs else (x :: g) :: gs

/-- All-digit character group to its numeric value. -/
def digitsToNat? (cs : List Char) : Option Nat :=
  if !cs.isEmpty && cs.all Char.isDigit then
    some (cs.foldl (fun n c => n * 10 + (c.toNat - '0'.toNat)) 0)
  else none

/-- Date part `YYYY-MM-DD` of an ISO string. -/
def parseDatePart (cs : List Char) : Option Nat :=
  match splitOnChar '-' cs with
  | [ys, ms, ds] =>
      if ys.length = 4 && ms.length = 2 && ds.length = 2 then
        match digitsToNat? ys, digitsToNat? ms, digitsToNat? ds with
        | some y, some m, some d =>
            if 1 ≤ m && m ≤ 12 && 1 ≤ d && d ≤ 31 then some (dateCode y m d) else none
        | _, _, _ => none
      else none
  | _ => none

/-- Time part `HH:MM[:SS]` of an ISO string, in seconds since midnight. -/
def parseTimePart (cs : List Char) : Option Nat :=
  match splitOnChar ':' cs with
  | [hs, ms] =>
      if hs.length = 2 && ms.length = 2 then
        match digitsToNat? hs, digitsToNat? ms with
        | some h, some m => if h ≤ 23 && m ≤ 59 then some (h * 3600 + m * 60) else none
        | _, _ => none
      else none
  | [hs, ms, ss] =>
      if hs.length = 2 && ms.length = 2 && ss.length = 2 then
        match digitsToNat? hs, digitsToNat? ms, digitsToNat? ss with
        | some h, some m, some sec =>
            if h ≤ 23 && m ≤ 59 && sec ≤ 59 then some (h * 3600 + m * 60 + sec) else none
        | _, _, _ => none
      else none
  | _ => none

/-- The trailing `+00:00` UTC offset, if present. -/
def hasUTCOffsetSuffix (cs : List Char) : Bool :=
  ['0', '0', ':', '0', '0', '+'].isPrefixOf cs.reverse

/-- Model of `datetime.fromisoformat` restricted to the declared interface
shape `YYYY-MM-DD[THH:MM[:SS]][+00:00]`: a date or a date-time string, with
the UTC offset the handlers introduce by the `Z` replacement tolerated and
ignored. Any other string fails, as `fromisoformat` raises `ValueError`. -/
def fromisoformat (s : String) : Option Nat :=
  let cs := s.toList
  let cs := if hasUTCOffsetSuffix cs then cs.take (cs.length - 6) else cs
  match splitOnChar 'T' cs with
  | [d] => parseDatePart d
  | [d, t] => do
      let dd ← parseDatePart d
      let tt ← parseTimePart t
      pure (dd + tt)
  | _ => none

/-- The `due_date.replace('Z', '+00:00')` normalization: every `Z`
character replaced by the UTC offset spelling. -/
def replaceZChars : List Char → List Char
  | [] => []
  | c :: rest =>
      if c = 'Z' then '+' :: '0' :: '0' :: ':' :: '0' :: '0' :: replaceZChars rest
      else c :: replaceZChars rest

/-- String form of the `Z` replacement. -/
def replaceZ (s : String) : String := String.mk (replaceZChars s.toList)

/-- Lower-cased character list of a string. -/
def lowerChars (s : String) : List Char := s.toList.map Char.toLower

/-- Contiguous-sublist test on character lists. -/
def isSubChars (p : List Char) : List Char → Bool
  | [] => p.isEmpty
  | c :: rest => p.isPrefixOf (c :: rest) || isSubChars p rest

/-- Model of `Task.title.ilike(f"%pat%")` for metacharacter-free patterns:
case-insensitive substring match (the spec glossary's "fuzzy title match"). -/
def ilikeContains (title pat : String) : Bool :=
  isSubChars (lowerChars pat) (lowerChars title)

/-! ### Shared helpers of `tools.py` -/

/-- The rows of `select(Task).where(Task.user_id == user_id)`. -/
def Store.userTasks (s : Store) (uid : String) : List Task :=
  s.tasks.filter (fun t => t.user_id == uid)

/-- Count of not-yet-completed tasks in a row list. -/
def pendingCount (ts : List Task) : Nat :=
  (ts.filter (fun t => !t.completed)).length

/-- Count of completed tasks in a row list. -/
def completedCount (ts : List Task) : Nat :=
  (ts.filter (fun t => t.completed)).length

/-- Count of overdue tasks (`due_date < now`, not completed). -/
def overdueCount (ts : List Task) (now : Nat) : Nat :=
  (ts.filter (fun t =>
    match t.due_date with
    | some d => decide (d < now) && !t.completed
    | none => false)).length

/-- The `_get_task_tags` join, already shaped as the result dictionaries. -/
def getTaskTagDicts (s : Store) (tid : String) : List Value :=
  (s.taskTags.filter (fun tt => tt.task_id == tid)).filterMap (fun tt =>
    (s.tags.find? (fun tg => tg.id == tt.tag_id)).map (fun tg =>
      Value.obj [("id", .str tg.id), ("name", .str tg.name), ("color", .str tg.color)]))

/-- The `\x7b1: "High", 2: "Medium", 3: "Low"\x7d.get(task.priority)` lookup:
`None` both for a missing priority and for a key outside the dictionary. -/
def priorityLabel (p : Option Int) : Value :=
  match p with
  | some 1 => .str "High"
  | some 2 => .str "Medium"
  | some 3 => .str "Low"
  | _ => .null

/-- The `_task_to_dict` serializer (`isoformat` rendered as the decimal
form of the abstract instant). -/
def taskToDict (t : Task) (s : Store) : Value :=
  Value.obj [
    ("id", .str t.id),
    ("title", .str t.title),
    ("completed", .bool t.completed),
    ("created_at", .str (toString t.created_at)),
    ("due_date", match t.due_date with | some d => .str (toString d) | none => .null),
    ("priority", match t.priority with | some p => .int p | none => .null),
    ("priority_label", priorityLabel t.priority),
    ("recurrence_rule", match t.recurrence_rule with | some r => .str r | none => .null),
    ("tags", .list (getTaskTagDicts s t.id))
  ]

/-- The `_get_or_create_tag` helper: first tag row matching name and owner,
else a freshly inserted one with the model's default color. -/
def getOrCreateTag (s : Store) (tagName uid : String) : Tag × Store :=
  match s.tags.find? (fun tg => tg.name == tagName && tg.user_id == uid) with
  | some tg => (tg, s)
  | none =>
      let (tid, s') := s.freshId
      let tg : Tag := ⟨tid, tagName, "#6B7280", uid⟩
      (tg, { s' with tags := s'.tags ++ [tg] })

/-! ### Sorting (`order_by`) -/

/-- Insertion into a list sorted by the boolean relation `le`. -/
def insertSorted (le : α → α → Bool) (x : α) : List α → List α
  | [] => [x]
  | y :: ys => if le x y then x :: y :: ys else y :: insertSorted le x ys

/-- Insertion sort by the boolean relation `le`. -/
def sortByB (le : α → α → Bool) : List α → List α :=
  List.foldr (insertSorted le) []

/-- Null-first comparison of optional instants (`NULL` sorts smallest). -/
def optNatLE : Option Nat → Option Nat → Bool
  | none, _ => true
  | some _, none => false
  | some a, some b => a ≤ b

/-- Null-first comparison of optional integers. -/
def optIntLE : Option Int → Option Int → Bool
  | none, _ => true
  | some _, none => false
  | some a, some b => a ≤ b

/-- The sort-column choice of `list_tasks`: its dictionary lookup defaults
to `created_at` for any unknown `sort_by`. -/
def taskLE (sort_by : String) (a b : Task) : Bool :=
  match sort_by with
  | "due_date" => optNatLE a.due_date b.due_date
  | "priority" => optIntLE a.priority b.priority
  | "title" => decide (a.title ≤ b.title)
  | _ => decide (a.created_at ≤ b.created_at)

/-- Tasks ordered ascending or descending by the chosen column. -/
def sortTasks (sort_by sort_order : String) (ts : List Task) : List Task :=
  if sort_order = "asc" then sortByB (taskLE sort_by) ts
  else sortByB (fun a b => taskLE sort_by b a) ts

/-! ### The six tool handlers

Python truthiness (`if x:`) on an optional string treats both `None` and
the empty string as false; on an optional list it also treats `[]` as
false. The handlers below reproduce those tests where the source uses
them, and use plain `Option` matching where the source tests `is not None`. -/

/-- Truthiness of an optional string argument. -/
def truthyStr : Option String → Option String
  | some "" => none
  | x => x

/-- Truthiness of an optional string-list argument. -/
def truthyList : Option (List String) → Option (List String)
  | some [] => none
  | x => x

/-- A failure-variant result dictionary. -/
def failV (msg : String) : Value :=
  .obj [("success", .bool false), ("error", .str msg)]

/-- Typed view of `add_task`'s keyword parameters. -/
structure AddArgs where
  title : String
  user_id : String
  due_date : Option String := none
  priority : Option Int := none
  tags : Option (List String) := none
  recurrence_rule : Option String := none
deriving DecidableEq, Repr

/-- The tag-attachment loop shared by `add_task` and `update_task`: get or
create each named tag and append a link row for the task. -/
def attachTags (tid uid : String) (names : List String) (s : Store) : Store :=
  names.foldl (fun (acc : Store) tagName =>
    let (tg, acc') := getOrCreateTag acc tagName uid
    { acc' with taskTags := acc'.taskTags ++ [⟨tid, tg.id⟩] }) s

/-- The `due_date` parsing step shared by the handlers: an absent or empty
(falsy) argument parses to no date; otherwise the `Z`-normalized string
must be ISO-parseable, the offending string being carried on failure. -/
def parseDueDate (od : Option String) : Except String (Option Nat) :=
  match truthyStr od with
  | some d =>
      match fromisoformat (replaceZ d) with
      | some n => .ok (some n)
      | none => .error d
  | none => .ok none

/-- The `add_task` handler. -/
def add_task (a : AddArgs) (now : Nat) (s : Store) : Store × Value :=
  match parseDueDate a.due_date with
  | .error d => (s, failV ("Invalid due_date format: " ++ d))
  | .ok due =>
      let (tid, s₁) := s.freshId
      let task : Task :=
        { id := tid, title := a.title, completed := false, user_id := a.user_id,
          created_at := now, updated_at := now, due_date := due,
          priority := a.priority, recurrence_rule := a.recurrence_rule }
      let s₂ := { s₁ with tasks := s₁.tasks ++ [task] }
      let s₃ :=
        match truthyList a.tags with
        | some names => attachTags task.id a.user_id names s₂
        | none => s₂
      let all := s₃.userTasks a.user_id
      (s₃, .obj [
        ("success", .bool true),
        ("task", taskToDict task s₃),
        ("total_tasks", .int all.length),
        ("pending_count", .int (pendingCount all)),
        ("completed_count", .int (completedCount all))
      ])

/-- Typed view of `list_tasks`'s keyword parameters, with the Python
defaults. -/
structure ListArgs where
  user_id : String
  status : String := "all"
  priority : Option Int := none
  tag : Option String := none
  search : Option String := none
  overdue : Option Bool := none
  sort_by : String := "created_at"
  sort_order : String := "desc"
  limit : Int := 50
deriving DecidableEq, Repr

/-- The `list_tasks` handler. The composed `where` chain is applied as
successive filters; the tag filter returns early when the tag is unknown. -/
def list_tasks (a : ListArgs) (now : Nat) (s : Store) : Store × Value :=
  let base := s.userTasks a.user_id
  let st₁ :=
    if a.status = "pending" then base.filter (fun t => !t.completed)
    else if a.status = "completed" then base.filter (fun t => t.completed)
    else base
  let st₂ :=
    match a.priority with
    | some p => st₁.filter (fun t => t.priority == some p)
    | none => st₁
  let rest := fun (stf : List Task) =>
    let st₃ :=
      match truthyStr a.search with
      | some q => stf.filter (fun t => ilikeContains t.title q)
      | none => stf
    let st₄ :=
      if a.overdue = some true then
        st₃.filter (fun t =>
          match t.due_date with
          | some d => decide (d < now) && !t.completed
          | none => false)
      else st₃
    let limited := (sortTasks a.sort_by a.sort_order st₄).take a.limit.toNat
    (s, Value.obj [
      ("success", .bool true),
      ("tasks", .list (limited.map (fun t => taskToDict t s))),
      ("total", .int base.length),
      ("pending_count", .int (pendingCount base)),
      ("completed_count", .int (completedCount base)),
      ("overdue_count", .int (overdueCount base now))
    ])
  match truthyStr a.tag with
  | some tname =>
      match s.tags.find? (fun tg => tg.name == tname && tg.user_id == a.user_id) with
      | some tagObj =>
          rest (st₂.filter (fun t =>
            s.taskTags.any (fun tt => tt.task_id == t.id && tt.tag_id == tagObj.id)))
      | none =>
          (s, .obj [
            ("success", .bool true),
            ("tasks", .list []),
            ("total", .int 0),
            ("message", .str ("No tag named '" ++ tname ++ "' found"))
          ])
  | none => rest st₂

/-- Typed view of `complete_task`'s keyword parameters. -/
structure CompleteArgs where
  user_id : String
  task_id : Option String := none
  title_match : Option String := none
deriving DecidableEq, Repr

/-- Candidates of `complete_task`'s fuzzy branch: the identity's pending
tasks whose title contains the pattern case-insensitively. -/
def completeCandidates (s : Store) (uid pat : String) : List Task :=
  s.tasks.filter (fun t =>
    t.user_id == uid && ilikeContains t.title pat && !t.completed)

/-- The commit of a completion: the found row updated in place by id. -/
def markCompleted (s : Store) (tid : String) (now : Nat) : Store :=
  { s with tasks := s.tasks.map (fun t =>
      if t.id == tid then { t with completed := true, updated_at := now } else t) }

/-- The tail of `complete_task` once a task row is in hand: reject an
already-completed row, otherwise commit the completion and rebuild the
counts. -/
def completeFinish (uid : String) (now : Nat) (s : Store) (task : Task) : Store × Value :=
  if task.completed then
    (s, failV ("Task '" ++ task.title ++ "' is already completed"))
  else
    let task' := { task with completed := true, updated_at := now }
    let s' := markCompleted s task.id now
    let all := s'.userTasks uid
    (s', Value.obj [
      ("success", .bool true),
      ("task", taskToDict task' s'),
      ("pending_count", .int (pendingCount all)),
      ("completed_count", .int (completedCount all))
    ])

/-- The `complete_task` handler. -/
def complete_task (a : CompleteArgs) (now : Nat) (s : Store) : Store × Value :=
  let finish := completeFinish a.user_id now s
  match truthyStr a.task_id with
  | some tid =>
      match (s.tasks.filter (fun t => t.id == tid && t.user_id == a.user_id)).head? with
      | none => (s, failV "Task not found")
      | some task => finish task
  | none =>
      match truthyStr a.title_match with
      | some pat =>
          let cands := completeCandidates s a.user_id pat
          match cands with
          | [] => (s, failV ("No pending task found matching '" ++ pat ++ "'"))
          | [task] => finish task
          | _ =>
              (s, .obj [
                ("success", .bool false),
                ("error", .str ("Multiple tasks match '" ++ pat ++ "'. Please be more specific.")),
                ("matches", .list (cands.map (fun t =>
                  .obj [("id", .str t.id), ("title", .str t.title)])))
              ])
      | none => (s, failV "Must provide task_id or title_match")

/-- Typed view of `update_task`'s keyword parameters. -/
structure UpdateArgs where
  user_id : String
  task_id : Option String := none
  title_match : Option String := none
  new_title : Option String := none
  due_date : Option String := none
  priority : Option Int := none
  tags : Option (List String) := none
deriving DecidableEq, Repr

/-- The field-update tail of `update_task` once a task row is in hand:
apply the requested field changes, recording each in the `changes`
dictionary, with an unparseable date aborting before any commit. -/
def updateApply (a : UpdateArgs) (now : Nat) (s : Store) (task : Task) : Store × Value :=
    let (task₁, changes₁) :=
      match truthyStr a.new_title with
      | some nt =>
          ({ task with title := nt },
           [("title", Value.obj [("from", .str task.title), ("to", .str nt)])])
      | none => (task, [])
    let parsed : Except String (Option Nat × List (String × Value)) :=
      match truthyStr a.due_date with
      | some d =>
          match fromisoformat (replaceZ d) with
          | some n => .ok (some n, [("due_date", Value.obj [("to", .str d)])])
          | none => .error d
      | none => .ok (none, [])
    match parsed with
    | .error d => (s, failV ("Invalid due_date format: " ++ d))
    | .ok (dueNew, changes₂) =>
        let task₂ :=
          match dueNew with
          | some n => { task₁ with due_date := some n }
          | none => task₁
        let (task₃, changes₃) :=
          match a.priority with
          | some p =>
              ({ task₂ with priority := some p },
               [("priority", Value.obj [
                  ("from", match task.priority with | some q => .int q | none => .null),
                  ("to", .int p)])])
          | none => (task₂, [])
        let (s₁, changes₄) : Store × List (String × Value) :=
          match a.tags with
          | some names =>
              let cleared := { s with taskTags := s.taskTags.filter (fun tt => tt.task_id ≠ task.id) }
              (attachTags task.id a.user_id names cleared,
               [("tags", Value.obj [("to", .list (names.map Value.str))])])
          | none => (s, [])
        let task' := { task₃ with updated_at := now }
        let s' := { s₁ with tasks := s₁.tasks.map (fun t => if t.id == task.id then task' else t) }
        (s', Value.obj [
          ("success", .bool true),
          ("task", taskToDict task' s'),
          ("changes", .obj (changes₁ ++ changes₂ ++ changes₃ ++ changes₄))
        ])

/-- The `update_task` handler. -/
def update_task (a : UpdateArgs) (now : Nat) (s : Store) : Store × Value :=
  let apply := updateApply a now s
  match truthyStr a.task_id with
  | some tid =>
      match (s.tasks.filter (fun t => t.id == tid && t.user_id == a.user_id)).head? with
      | none => (s, failV "Task not found")
      | some task => apply task
  | none =>
      match truthyStr a.title_match with
      | some pat =>
          let cands := s.tasks.filter (fun t =>
            t.user_id == a.user_id && ilikeContains t.title pat)
          match cands with
          | [] => (s, failV ("No task found matching '" ++ pat ++ "'"))
          | [task] => apply task
          | _ =>
              (s, .obj [
                ("success", .bool false),
                ("error", .str ("Multiple tasks match '" ++ pat ++ "'. Please be more specific.")),
                ("matches", .list (cands.map (fun t =>
                  .obj [("id", .str t.id), ("title", .str t.title)])))
              ])
      | none => (s, failV "Must provide task_id or title_match")

/-- Typed view of `delete_task`'s keyword parameters. -/
structure DeleteArgs where
  user_id : String
  task_id : Option String := none
  title_match : Option String := none
  delete_completed : Bool := false
deriving DecidableEq, Repr

/-- Removal of a set of task rows and their tag links, then the shared
count-bearing success dictionary of `delete_task`. -/
def deleteFinish (a : DeleteArgs) (s : Store) (victims : List Task) : Store × Value :=
  let s' := { s with
    tasks := s.tasks.filter (fun t => !(victims.any (fun v => v.id == t.id))),
    taskTags := s.taskTags.filter (fun tt => !(victims.any (fun v => v.id == tt.task_id))) }
  let all := s'.userTasks a.user_id
  (s', Value.obj [
    ("success", .bool true),
    ("deleted", .list (victims.map (fun t => .obj [("id", .str t.id), ("title", .str t.title)]))),
    ("count", .int victims.length),
    ("remaining_tasks", .int all.length),
    ("pending_count", .int (pendingCount all)),
    ("completed_count", .int (completedCount all))
  ])

/-- The `delete_task` handler. -/
def delete_task (a : DeleteArgs) (_now : Nat) (s : Store) : Store × Value :=
  if a.delete_completed then
    deleteFinish a s (s.tasks.filter (fun t => t.user_id == a.user_id && t.completed))
  else
    match truthyStr a.task_id with
    | some tid =>
        match (s.tasks.filter (fun t => t.id == tid && t.user_id == a.user_id)).head? with
        | none => (s, failV "Task not found")
        | some task => deleteFinish a s [task]
    | none =>
        match truthyStr a.title_match with
        | some pat =>
            let cands := s.tasks.filter (fun t =>
              t.user_id == a.user_id && ilikeContains t.title pat)
            match cands with
            | [] => (s, failV ("No task found matching '" ++ pat ++ "'"))
            | [task] => deleteFinish a s [task]
            | _ =>
                (s, .obj [
                  ("success", .bool false),
                  ("error", .str ("Multiple tasks match '" ++ pat ++ "'. Please be more specific.")),
                  ("matches", .list (cands.map (fun t =>
                    .obj [("id", .str t.id), ("title", .str t.title)])))
                ])
        | none => (s, failV "Must provide task_id, title_match, or delete_completed=true")

/-- Typed view of `manage_tags`'s keyword parameters. -/
structure ManageTagsArgs where
  user_id : String
  action : String
  name : Option String := none
  color : Option String := none
deriving DecidableEq, Repr

/-- The `manage_tags` handler. -/
def manage_tags (a : ManageTagsArgs) (_now : Nat) (s : Store) : Store × Value :=
  if a.action = "list" then
    let tags := sortByB (fun x y => decide (x.name ≤ y.name))
      (s.tags.filter (fun tg => tg.user_id == a.user_id))
    (s, .obj [
      ("success", .bool true),
      ("tags", .list (tags.map (fun tg =>
        .obj [("id", .str tg.id), ("name", .str tg.name), ("color", .str tg.color)]))),
      ("count", .int tags.length)
    ])
  else if a.action = "create" then
    match truthyStr a.name with
    | none => (s, failV "Tag name is required")
    | some nm =>
        match s.tags.find? (fun tg => tg.name == nm && tg.user_id == a.user_id) with
        | some _ => (s, failV ("Tag '" ++ nm ++ "' already exists"))
        | none =>
            let (tid, s₁) := s.freshId
            let tg : Tag := ⟨tid, nm, (truthyStr a.color).getD "#6B7280", a.user_id⟩
            ({ s₁ with tags := s₁.tags ++ [tg] }, .obj [
              ("success", .bool true),
              ("tag", .obj [("id", .str tg.id), ("name", .str tg.name), ("color", .str tg.color)])
            ])
  else if a.action = "delete" then
    match truthyStr a.name with
    | none => (s, failV "Tag name is required")
    | some nm =>
        match s.tags.find? (fun tg => tg.name == nm && tg.user_id == a.user_id) with
        | none => (s, failV ("Tag '" ++ nm ++ "' not found"))
        | some tg =>
            ({ s with
                tags := s.tags.filter (fun t => t.id ≠ tg.id),
                taskTags := s.taskTags.filter (fun tt => tt.tag_id ≠ tg.id) },
             .obj [
              ("success", .bool true),
              ("deleted", .obj [("id", .str tg.id), ("name", .str tg.name)])
            ])
  else
    (s, failV ("Unknown action: " ++ a.action))

/-! ### Keyword binding and `execute_tool`

`handler(**arguments)` binds the bag's fields to the handler's keyword
parameters. An unexpected key or a missing required key raises `TypeError`,
which `execute_tool`'s `except` clause converts into a failure result; the
binders below return `none` in exactly those situations (a value of a shape
other than the parameter's declared one is likewise rejected here, standing
for the downstream fault it would cause). -/

/-- Required string parameter. -/
def reqStr (b : Bag) (k : String) : Option String :=
  match b.lookup k with
  | some (.str s) => some s
  | _ => none

/-- Optional string parameter (absent binds the `None` default). -/
def optStr (b : Bag) (k : String) : Option (Option String) :=
  match b.lookup k with
  | none => some none
  | some (.str s) => some (some s)
  | _ => none

/-- Optional integer parameter. -/
def optInt (b : Bag) (k : String) : Option (Option Int) :=
  match b.lookup k with
  | none => some none
  | some (.int n) => some (some n)
  | _ => none

/-- Optional boolean parameter. -/
def optBool (b : Bag) (k : String) : Option (Option Bool) :=
  match b.lookup k with
  | none => some none
  | some (.bool v) => some (some v)
  | _ => none

/-- Optional string-list parameter. -/
def optStrList (b : Bag) (k : String) : Option (Option (List String)) :=
  match b.lookup k with
  | none => some none
  | some (.strList xs) => some (some xs)
  | _ => none

/-- String parameter with a non-`None` default. -/
def strWithD (b : Bag) (k d : String) : Option String :=
  match b.lookup k with
  | none => some d
  | some (.str s) => some s
  | _ => none

/-- Integer parameter with a default. -/
def intWithD (b : Bag) (k : String) (d : Int) : Option Int :=
  match b.lookup k with
  | none => some d
  | some (.int n) => some n
  | _ => none

/-- Boolean parameter with a default. -/
def boolWithD (b : Bag) (k : String) (d : Bool) : Option Bool :=
  match b.lookup k with
  | none => some d
  | some (.bool v) => some v
  | _ => none

/-- Keyword names of `add_task`. -/
def addParams : List String :=
  ["title", "user_id", "due_date", "priority", "tags", "recurrence_rule"]

/-- Keyword names of `list_tasks`. -/
def listParams : List String :=
  ["user_id", "status", "priority", "tag", "search", "overdue", "sort_by", "sort_order", "limit"]

/-- Keyword names of `complete_task`. -/
def completeParams : List String := ["user_id", "task_id", "title_match"]

/-- Keyword names of `update_task`. -/
def updateParams : List String :=
  ["user_id", "task_id", "title_match", "new_title", "due_date", "priority", "tags"]

/-- Keyword names of `delete_task`. -/
def deleteParams : List String :=
  ["user_id", "task_id", "title_match", "delete_completed"]

/-- Keyword names of `manage_tags`. -/
def manageParams : List String := ["user_id", "action", "name", "color"]

/-- Keyword binding for `add_task`. -/
def bindAdd (b : Bag) : Option AddArgs :=
  if Bag.keysOK addParams b then do
    let title ← reqStr b "title"
    let uid ← reqStr b "user_id"
    let due ← optStr b "due_date"
    let pr ← optInt b "priority"
    let tg ← optStrList b "tags"
    let rr ← optStr b "recurrence_rule"
    pure { title := title, user_id := uid, due_date := due,
           priority := pr, tags := tg, recurrence_rule := rr }
  else none

/-- Keyword binding for `list_tasks`. -/
def bindList (b : Bag) : Option ListArgs :=
  if Bag.keysOK listParams b then do
    let uid ← reqStr b "user_id"
    let status ← strWithD b "status" "all"
    let pr ← optInt b "priority"
    let tag ← optStr b "tag"
    let search ← optStr b "search"
    let ov ← optBool b "overdue"
    let sb ← strWithD b "sort_by" "created_at"
    let so ← strWithD b "sort_order" "desc"
    let lim ← intWithD b "limit" 50
    pure { user_id := uid, status := status, priority := pr, tag := tag,
           search := search, overdue := ov, sort_by := sb, sort_order := so, limit := lim }
  else none

/-- Keyword binding for `complete_task`. -/
def bindComplete (b : Bag) : Option CompleteArgs :=
  if Bag.keysOK completeParams b then do
    let uid ← reqStr b "user_id"
    let tid ← optStr b "task_id"
    let tm ← optStr b "title_match"
    pure { user_id := uid, task_id := tid, title_match := tm }
  else none

/-- Keyword binding for `update_task`. -/
def bindUpdate (b : Bag) : Option UpdateArgs :=
  if Bag.keysOK updateParams b then do
    let uid ← reqStr b "user_id"
    let tid ← optStr b "task_id"
    let tm ← optStr b "title_match"
    let nt ← optStr b "new_title"
    let due ← optStr b "due_date"
    let pr ← optInt b "priority"
    let tg ← optStrList b "tags"
    pure { user_id := uid, task_id := tid, title_match := tm, new_title := nt,
           due_date := due, priority := pr, tags := tg }
  else none

/-- Keyword binding for `delete_task`. -/
def bindDelete (b : Bag) : Option DeleteArgs :=
  if Bag.keysOK deleteParams b then do
    let uid ← reqStr b "user_id"
    let tid ← optStr b "task_id"
    let tm ← optStr b "title_match"
    let dc ← boolWithD b "delete_completed" false
    pure { user_id := uid, task_id := tid, title_match := tm, delete_completed := dc }
  else none

/-- Keyword binding for `manage_tags`. -/
def bindManage (b : Bag) : Option ManageTagsArgs :=
  if Bag.keysOK manageParams b then do
    let uid ← reqStr b "user_id"
    let act ← reqStr b "action"
    let nm ← optStr b "name"
    let col ← optStr b "color"
    pure { user_id := uid, action := act, name := nm, color := col }
  else none

/-- Keys of the `TOOL_HANDLERS` dispatch table. -/
def TOOL_NAMES : List String :=
  ["add_task", "list_tasks", "complete_task", "update_task", "delete_task", "manage_tags"]

/-- Outcome of `execute_tool`: the store after the call, the returned
result dictionary, and the argument dictionary as `execute_tool` leaves it
(Python mutates the caller's dictionary in place when injecting the
identity, and the runner records from that same object). -/
structure ExecResult where
  store : Store
  result : Value
  args : Bag
deriving DecidableEq, Repr

/-- The `str(e)` of a `TypeError` raised by `handler(**arguments)`,
as surfaced by `execute_tool`'s exception boundary. -/
def typeErrorV (tool_name : String) : Value :=
  failV ("TypeError: invalid arguments for " ++ tool_name)

/-- The `execute_tool` dispatcher: unknown names fail without touching the
arguments or the store; otherwise the authenticated identity is injected
into the bag (overwriting any model-supplied `user_id`) before the handler
is bound and run, with any raised error converted to a failure result. -/
def executeTool (tool_name : String) (b : Bag) (user_id : String) (now : Nat) (s : Store) :
    ExecResult :=
  if TOOL_NAMES.contains tool_name then
    let args := b.inject user_id
    let sv : Store × Value :=
      if tool_name = "add_task" then
        match bindAdd args with
        | some a => add_task a now s
        | none => (s, typeErrorV tool_name)
      else if tool_name = "list_tasks" then
        match bindList args with
        | some a => list_tasks a now s
        | none => (s, typeErrorV tool_name)
      else if tool_name = "complete_task" then
        match bindComplete args with
        | some a => complete_task a now s
        | none => (s, typeErrorV tool_name)
      else if tool_name = "update_task" then
        match bindUpdate args with
        | some a => update_task a now s
        | none => (s, typeErrorV tool_name)
      else if tool_name = "delete_task" then
        match bindDelete args with
        | some a => delete_task a now s
        | none => (s, typeErrorV tool_name)
      else
        match bindManage args with
        | some a => manage_tags a now s
        | none => (s, typeErrorV tool_name)
    ⟨sv.1, sv.2, args⟩
  else
    ⟨s, failV ("Unknown tool: " ++ tool_name), b⟩

/-! ### The conversation loop (`agent/runner.py`) -/

mutual

/-- The `json.dumps` serialization of a result dictionary (string escaping
elided; no result produced by the handlers needs it). -/
def dumps : Value → String
  | .null => "null"
  | .bool true => "true"
  | .bool false => "false"
  | .int n => toString n
  | .str s => "\"" ++ s ++ "\""
  | .list xs => "[" ++ dumpsList xs ++ "]"
  | .obj fs => "\x7b" ++ dumpsFields fs ++ "\x7d"

def dumpsList : List Value → String
  | [] => ""
  | [x] => dumps x
  | x :: xs => dumps x ++ ", " ++ dumpsList xs

def dumpsFields : List (String × Value) → String
  | [] => ""
  | [(k, v)] => "\"" ++ k ++ "\": " ++ dumps v
  | (k, v) :: fs => "\"" ++ k ++ "\": " ++ dumps v ++ ", " ++ dumpsFields fs

end

/-- One model-requested tool call: its id, the function name, and the
`json.loads` of its argument payload (`none` stands for a
`JSONDecodeError`, which the runner treats as an empty argument bag). -/
structure ToolCall where
  id : String
  name : String
  arguments : Option Bag
deriving DecidableEq, Repr

/-- A chat-completion message as the runner assembles them. -/
inductive Msg where
  | system (content : String)
  | user (content : String)
  | assistant (content : String)
  | assistantCalls (content : String) (tool_calls : List ToolCall)
  | tool (tool_call_id : String) (content : String)
deriving DecidableEq, Repr

/-- Role tag of a message. -/
def Msg.role : Msg → String
  | .system _ => "system"
  | .user _ => "user"
  | .assistant _ => "assistant"
  | .assistantCalls _ _ => "assistant"
  | .tool _ _ => "tool"

/-- One response of the chat-completion service: either the transport
raised (caught by the runner's `except`), or an assistant message with
optional content and a possibly empty list of tool calls (Python's
`if assistant_message.tool_calls:` treats the empty list like `None`). -/
inductive ModelStep where
  | failure (err : String)
  | reply (content : Option String) (tool_calls : List ToolCall)
deriving DecidableEq, Repr

/-- The generative-model dependency: a function from the assembled message
list to the next response. -/
def ChatModel := List Msg → ModelStep

/-- One recorded entry of `actions_taken`. -/
structure Action where
  tool : String
  input : Bag
  result : Value
deriving DecidableEq, Repr

/-- In-flight state of one turn: the `full_messages` list, the
`actions_taken` list and the task store. -/
structure LoopState where
  msgs : List Msg
  actions : List Action
  store : Store
deriving DecidableEq, Repr

/-- Dispatch of a single requested tool call: parse the payload (a decode
failure yields empty arguments), run `execute_tool`, record the action with
the identity field stripped from the (injected) argument dictionary, and
append the tool-result message. -/
def dispatchCall (uid : String) (now : Nat) (st : LoopState) (tc : ToolCall) : LoopState :=
  let arguments := tc.arguments.getD []
  let r := executeTool tc.name arguments uid now st.store
  { msgs := st.msgs ++ [Msg.tool tc.id (dumps r.result)],
    actions := st.actions ++ [⟨tc.name, r.args.eraseUserId, r.result⟩],
    store := r.store }

/-- Dispatch of one round's tool calls in the model's emission order. -/
def dispatchCalls (uid : String) (now : Nat) (st : LoopState) (tcs : List ToolCall) : LoopState :=
  tcs.foldl (dispatchCall uid now) st

/-- The fixed message returned when the iteration cap is reached. -/
def iterationCapMsg : String :=
  "I'm having trouble processing your request. Please try again with a simpler request."

/-- The fixed fallback for an empty final text. -/
def emptyFallbackMsg : String :=
  "I'm not sure how to help with that. Try asking me to add, list, complete, update, or delete tasks."

/-- The `while iteration < max_iterations` loop of `_run_agent_direct`,
with the remaining iteration budget as fuel. Exhausted fuel is the
fall-through past the loop: the fixed cap message with the gathered
actions. -/
def agentLoop (model : ChatModel) (uid : String) (now : Nat) :
    Nat → LoopState → String × List Action × Store
  | 0, st => (iterationCapMsg, st.actions, st.store)
  | fuel + 1, st =>
      match model st.msgs with
      | .failure e => ("Sorry, I encountered an error: " ++ e, st.actions, st.store)
      | .reply content tcs =>
          match tcs with
          | [] =>
              let t := content.getD ""
              (if t = "" then emptyFallbackMsg else t, st.actions, st.store)
          | _ :: _ =>
              let st₁ := { st with msgs := st.msgs ++ [Msg.assistantCalls (content.getD "") tcs] }
              agentLoop model uid now fuel (dispatchCalls uid now st₁ tcs)

/-- The system prompt of the runner (content immaterial to the loop's
control flow; reproduced in opening lines, elided thereafter). -/
def SYSTEM_PROMPT : String :=
  "You are a helpful todo assistant. You help users manage their tasks through natural conversation.\n\nYou have access to tools that let you add, list, complete, update, and delete tasks.\n..."

/-- The seeding step of `_run_agent_direct`: system prompt plus the
non-system prior entries, no actions yet. -/
def seedState (messages : List Msg) (s : Store) : LoopState :=
  ⟨Msg.system SYSTEM_PROMPT :: messages.filter (fun m => m.role != "system"), [], s⟩

/-- The `_run_agent_direct` entry point: seed `full_messages` with the
system prompt plus the non-system history, then run at most 10 rounds.
The store is threaded explicitly; the OpenAI client is the `model`
parameter. -/
def runAgentDirect (model : ChatModel) (messages : List Msg) (user_id : String)
    (now : Nat) (s : Store) : String × List Action × Store :=
  agentLoop model user_id now 10 (seedState messages s)

/-- The loop state after a given number of generate/dispatch rounds, for a
model that keeps requesting operations (a round that produces no tool
calls leaves the state untouched). One recursion step performs exactly one
generate and one dispatch. -/
def roundsState (model : ChatModel) (uid : String) (now : Nat) :
    Nat → LoopState → LoopState
  | 0, st => st
  | fuel + 1, st =>
      match model st.msgs with
      | .reply c (tc :: tcs) =>
          roundsState model uid now fuel
            (dispatchCalls uid now
              { st with msgs := st.msgs ++ [Msg.assistantCalls (c.getD "") (tc :: tcs)] }
              (tc :: tcs))
      | _ => st

/-! ### The incremental emitter (`routers/chatkit.py`) -/

/-- A `conversations` row. -/
structure Conversation where
  id : String
  user_id : String
  title : Option String
  created_at : Nat
  updated_at : Nat
deriving DecidableEq, Repr

/-- A `messages` row. -/
structure StoredMsg where
  id : String
  conversation_id : String
  role : String
  content : String
  tool_calls : Option Value
  created_at : Nat
deriving DecidableEq, Repr

/-- The conversation-side database, with a `uuid4` counter. -/
structure World where
  conversations : List Conversation
  messages : List StoredMsg
  nextId : Nat
deriving DecidableEq, Repr

/-- Fresh `uuid4` string for the emitter, with the bumped world. -/
def World.freshId (w : World) : String × World :=
  ("uuid-" ++ toString w.nextId, { w with nextId := w.nextId + 1 })

/-- The SSE event vocabulary emitted by `stream_chat_response`. -/
inductive Event where
  | threadCreated (thread_id : String) (created_at : Nat)
  | messageCreated (message_id thread_id role content : String) (created_at : Nat)
  | toolCall (tool_call_id tool_name : String) (arguments : Bag) (result : Value)
  | messageDelta (message_id content : String)
  | messageDone (message_id content : String)
  | done (thread_id : String)
deriving DecidableEq, Repr

/-- Serialization of an `Arg` into a result-value for persistence. -/
def argToValue : Arg → Value
  | .str s => .str s
  | .int n => .int n
  | .bool b => .bool b
  | .strList xs => .list (xs.map Value.str)

/-- Serialization of a recorded action for the `tool_calls` column. -/
def actionToValue (a : Action) : Value :=
  .obj [
    ("tool", .str a.tool),
    ("input", .obj (a.input.map (fun kv => (kv.1, argToValue kv.2)))),
    ("result", a.result)
  ]

/-- The history assembly of `stream_chat_response`: the conversation's
stored messages ordered by `created_at`, with only user/assistant text
entries carried forward as agent input. -/
def historyMsgs (stored : List StoredMsg) (cid : String) : List Msg :=
  (sortByB (fun (x y : StoredMsg) => decide (x.created_at ≤ y.created_at))
    (stored.filter (fun m => m.conversation_id == cid))).filterMap (fun m =>
      if m.role == "user" then some (Msg.user m.content)
      else if m.role == "assistant" then some (Msg.assistant m.content)
      else none)

/-- The tool-call emission loop of `stream_chat_response`: one `tool_call`
event per recorded action, in recorded order, each with a fresh id. -/
def toolCallEvents (w : World) : List Action → List Event × World
  | [] => ([], w)
  | a :: rest =>
      let tcid := w.freshId.1
      let r := toolCallEvents w.freshId.2 rest
      (Event.toolCall tcid a.tool a.input a.result :: r.1, r.2)

/-- The `stream_chat_response` generator: the ordered list of yielded
events, together with the persisted conversation state and task store.
The `run_agent` call is the total `runAgentDirect`, so the surrounding
`except` branch (apology text, no actions) is unreachable in the model. -/
def streamChatResponse (model : ChatModel) (message thread_id user_id : String)
    (now : Nat) (w : World) (ts : Store) : List Event × World × Store :=
  let conv? := w.conversations.find? (fun c => c.id == thread_id && c.user_id == user_id)
  let cwe : Conversation × World × List Event :=
    match conv? with
    | some c => (c, w, [])
    | none =>
        let c : Conversation := ⟨thread_id, user_id, none, now, now⟩
        (c, { w with conversations := w.conversations ++ [c] },
         [Event.threadCreated thread_id now])
  let conv := cwe.1
  let w₁ := cwe.2.1
  let ev₀ := cwe.2.2
  let msgs := historyMsgs w₁.messages conv.id ++ [Msg.user message]
  let userMsgId := w₁.freshId.1
  let w₂ := w₁.freshId.2
  let ev₁ := [Event.messageCreated userMsgId thread_id "user" message now]
  let agentRes := runAgentDirect model msgs user_id now ts
  let response_text := agentRes.1
  let actions := agentRes.2.1
  let ts' := agentRes.2.2
  let toolEvs := (toolCallEvents w₂ actions).1
  let w₃ := (toolCallEvents w₂ actions).2
  let assistantMsgId := w₃.freshId.1
  let w₄ := w₃.freshId.2
  let ev₂ := [
    Event.messageCreated assistantMsgId thread_id "assistant" "" now,
    Event.messageDelta assistantMsgId response_text,
    Event.messageDone assistantMsgId response_text]
  let userRow : StoredMsg := ⟨w₄.freshId.1, conv.id, "user", message, none, now⟩
  let w₅ := w₄.freshId.2
  let asstRow : StoredMsg :=
    ⟨w₅.freshId.1, conv.id, "assistant", response_text,
     (if actions.isEmpty then none
      else some (Value.obj [("data", .list (actions.map actionToValue))])), now⟩
  let w₆ := w₅.freshId.2
  let conv' := { conv with
    updated_at := now,
    title :=
      match truthyStr conv.title with
      | none => some (message.take 50 ++ (if message.length > 50 then "..." else ""))
      | some t => some t }
  let w₇ := { w₆ with
    messages := w₆.messages ++ [userRow, asstRow],
    conversations := w₆.conversations.map (fun c => if c.id == conv.id then conv' else c) }
  (ev₀ ++ ev₁ ++ toolEvs ++ ev₂ ++ [Event.done thread_id], w₇, ts')

/-! ### Observation helpers and concrete fixtures -/

/-- Whether a result is a dictionary carrying a boolean `success` field —
the discriminant of the structured Operation Result. -/
def hasSuccessBool (v : Value) : Bool :=
  match v.getField "success" with
  | some (.bool _) => true
  | _ => false

/-- Stage rank of an emitted event in the fixed incremental order:
thread-init, user message, tool calls, assistant message, delta, message
done, stream done. -/
def eventRank : Event → Nat
  | .threadCreated .. => 0
  | .messageCreated _ _ role _ _ => if role = "user" then 1 else 3
  | .toolCall .. => 2
  | .messageDelta .. => 4
  | .messageDone .. => 5
  | .done _ => 6

/-- The observable payload of a `tool_call` event. -/
def toolCallPayload : Event → Option (String × Bag × Value)
  | .toolCall _ n args r => some (n, args, r)
  | _ => none

/-- A model that always requests one more `list_tasks` call and never
produces final text. -/
def alwaysCallModel : ChatModel :=
  fun _ => .reply none [⟨"call-1", "list_tasks", some []⟩]

/-- One user with a single pending "buy milk" task. -/
def buyMilkStore : Store :=
  (add_task { title := "buy milk", user_id := "u", priority := some 1 } 0 Store.empty).1

/-- The task row `add_task` inserts for given arguments, instant and
prior store, once the due date has parsed. -/
def freshTaskOf (a : AddArgs) (now : Nat) (s : Store) (due : Option Nat) : Task :=
  { id := "id-" ++ toString s.nextId, title := a.title, completed := false,
    user_id := a.user_id, created_at := now, updated_at := now, due_date := due,
    priority := a.priority, recurrence_rule := a.recurrence_rule }

/-- The task row `buyMilkStore` holds. -/
def buyMilkTask : Task :=
  ⟨"id-0", "buy milk", false, "u", 0, 0, none, some 1, none⟩

/-- One user with pending "call mom" and "call dentist" tasks. -/
def callStore : Store :=
  (add_task { title := "call dentist", user_id := "u" } 1
    (add_task { title := "call mom", user_id := "u" } 0 Store.empty).1).1

/-- First step of the scenario of §8: complete "buy milk" by fuzzy match. -/
def buyMilkCompleted : Store × Value :=
  complete_task { user_id := "u", title_match := some "buy milk" } 1 buyMilkStore

/-- Second step: complete the same fuzzy match again. -/
def buyMilkCompletedTwice : Store × Value :=
  complete_task { user_id := "u", title_match := some "buy milk" } 2 buyMilkCompleted.1

/-! ### Dictionary lemmas for the identity-injection invariant -/

theorem Bag.lookup_inject (b : Bag) (u k : String) :
    (b.inject u).lookup k = if k = "user_id" then some (.str u) else b.lookup k := by
  by_cases hk : k = "user_id"
  · subst hk
    simp only [if_pos rfl]
    induction b with
    | nil => simp [Bag.inject, Bag.lookup]
    | cons kv rest ih =>
        obtain ⟨k₀, v⟩ := kv
        by_cases h : k₀ = "user_id"
        · subst h; simp [Bag.inject, Bag.lookup]
        · simp [Bag.inject, Bag.lookup, h, ih]
  · have h' : ¬ ("user_id" : String) = k := fun hh => hk hh.symm
    simp only [if_neg hk]
    induction b with
    | nil => simp [Bag.inject, Bag.lookup, h']
    | cons kv rest ih =>
        obtain ⟨k₀, v⟩ := kv
        by_cases h : k₀ = "user_id"
        · subst h; simp [Bag.inject, Bag.lookup, h']
        · simp [Bag.inject, Bag.lookup, h, ih]

theorem Bag.lookup_eraseUserId (b : Bag) (k : String) (hk : k ≠ "user_id") :
    b.eraseUserId.lookup k = b.lookup k := by
  have h' : ¬ ("user_id" : String) = k := fun hh => hk hh.symm
  induction b with
  | nil => rfl
  | cons kv rest ih =>
      obtain ⟨k₀, v⟩ := kv
      by_cases h : k₀ = "user_id"
      · subst h; simp [Bag.eraseUserId, Bag.lookup, h', ih]
      · simp [Bag.eraseUserId, Bag.lookup, h, ih]

theorem Bag.lookup_inject_eraseUserId (b : Bag) (u : String) :
    ∀ k, ((b.eraseUserId).inject u).lookup k = (b.inject u).lookup k := by
  intro k
  rw [Bag.lookup_inject, Bag.lookup_inject]
  by_cases hk : k = "user_id"
  · simp [hk]
  · simp [hk, Bag.lookup_eraseUserId b k hk]

theorem Bag.keysOK_inject (params : List String) (b : Bag) (u : String)
    (h : params.contains "user_id" = true) :
    Bag.keysOK params (b.inject u) = Bag.keysOK params b := by
  have hm : "user_id" ∈ params := by simpa using h
  induction b with
  | nil => simp [Bag.inject, Bag.keysOK, hm]
  | cons kv rest ih =>
      obtain ⟨k₀, v⟩ := kv
      by_cases hk : k₀ = "user_id"
      · subst hk; simp [Bag.inject, Bag.keysOK, hm]
      · simp [Bag.inject, Bag.keysOK, hk, ih]

theorem Bag.keysOK_eraseUserId (params : List String) (b : Bag)
    (h : params.contains "user_id" = true) :
    Bag.keysOK params b.eraseUserId = Bag.keysOK params b := by
  have hm : "user_id" ∈ params := by simpa using h
  induction b with
  | nil => rfl
  | cons kv rest ih =>
      obtain ⟨k₀, v⟩ := kv
      by_cases hk : k₀ = "user_id"
      · subst hk; simp [Bag.eraseUserId, Bag.keysOK, hm, ih]
      · simp [Bag.eraseUserId, Bag.keysOK, hk, ih]

theorem Bag.eraseUserId_inject (b : Bag) (u : String) :
    (b.inject u).eraseUserId = b.eraseUserId := by
  induction b with
  | nil => rfl
  | cons kv rest ih =>
      obtain ⟨k₀, v⟩ := kv
      by_cases hk : k₀ = "user_id"
      · subst hk; simp [Bag.inject, Bag.eraseUserId]
      · simp [Bag.inject, Bag.eraseUserId, hk, ih]

theorem reqStr_ext (b₁ b₂ : Bag) (h : ∀ k, b₁.lookup k = b₂.lookup k) :
    ∀ k, reqStr b₁ k = reqStr b₂ k := by
  intro k; unfold reqStr; rw [h]

theorem optStr_ext (b₁ b₂ : Bag) (h : ∀ k, b₁.lookup k = b₂.lookup k) :
    ∀ k, optStr b₁ k = optStr b₂ k := by
  intro k; unfold optStr; rw [h]

theorem optInt_ext (b₁ b₂ : Bag) (h : ∀ k, b₁.lookup k = b₂.lookup k) :
    ∀ k, optInt b₁ k = optInt b₂ k := by
  intro k; unfold optInt; rw [h]

theorem optBool_ext (b₁ b₂ : Bag) (h : ∀ k, b₁.lookup k = b₂.lookup k) :
    ∀ k, optBool b₁ k = optBool b₂ k := by
  intro k; unfold optBool; rw [h]

theorem optStrList_ext (b₁ b₂ : Bag) (h : ∀ k, b₁.lookup k = b₂.lookup k) :
    ∀ k, optStrList b₁ k = optStrList b₂ k := by
  intro k; unfold optStrList; rw [h]

theorem strWithD_ext (b₁ b₂ : Bag) (h : ∀ k, b₁.lookup k = b₂.lookup k) :
    ∀ k d, strWithD b₁ k d = strWithD b₂ k d := by
  intro k d; unfold strWithD; rw [h]

theorem intWithD_ext (b₁ b₂ : Bag) (h : ∀ k, b₁.lookup k = b₂.lookup k) :
    ∀ k d, intWithD b₁ k d = intWithD b₂ k d := by
  intro k d; unfold intWithD; rw [h]

theorem boolWithD_ext (b₁ b₂ : Bag) (h : ∀ k, b₁.lookup k = b₂.lookup k) :
    ∀ k d, boolWithD b₁ k d = boolWithD b₂ k d := by
  intro k d; unfold boolWithD; rw [h]

theorem keysOK_inject_erase (params : List String) (b : Bag) (u : String)
    (h : params.contains "user_id" = true) :
    Bag.keysOK params ((b.eraseUserId).inject u) = Bag.keysOK params (b.inject u) := by
  rw [Bag.keysOK_inject params _ u h, Bag.keysOK_inject params b u h,
    Bag.keysOK_eraseUserId params b h]

theorem bindAdd_inject_erase (b : Bag) (u : String) :
    bindAdd ((b.eraseUserId).inject u) = bindAdd (b.inject u) := by
  have hl := Bag.lookup_inject_eraseUserId b u
  unfold bindAdd
  rw [keysOK_inject_erase addParams b u (by decide)]
  simp only [reqStr_ext _ _ hl, optStr_ext _ _ hl, optInt_ext _ _ hl, optStrList_ext _ _ hl]

theorem bindList_inject_erase (b : Bag) (u : String) :
    bindList ((b.eraseUserId).inject u) = bindList (b.inject u) := by
  have hl := Bag.lookup_inject_eraseUserId b u
  unfold bindList
  rw [keysOK_inject_erase listParams b u (by decide)]
  simp only [reqStr_ext _ _ hl, optStr_ext _ _ hl, optInt_ext _ _ hl, optBool_ext _ _ hl,
    strWithD_ext _ _ hl, intWithD_ext _ _ hl]

theorem bindComplete_inject_erase (b : Bag) (u : String) :
    bindComplete ((b.eraseUserId).inject u) = bindComplete (b.inject u) := by
  have hl := Bag.lookup_inject_eraseUserId b u
  unfold bindComplete
  rw [keysOK_inject_erase completeParams b u (by decide)]
  simp only [reqStr_ext _ _ hl, optStr_ext _ _ hl]

theorem bindUpdate_inject_erase (b : Bag) (u : String) :
    bindUpdate ((b.eraseUserId).inject u) = bindUpdate (b.inject u) := by
  have hl := Bag.lookup_inject_eraseUserId b u
  unfold bindUpdate
  rw [keysOK_inject_erase updateParams b u (by decide)]
  simp only [reqStr_ext _ _ hl, optStr_ext _ _ hl, optInt_ext _ _ hl, optStrList_ext _ _ hl]

theorem bindDelete_inject_erase (b : Bag) (u : String) :
    bindDelete ((b.eraseUserId).inject u) = bindDelete (b.inject u) := by
  have hl := Bag.lookup_inject_eraseUserId b u
  unfold bindDelete
  rw [keysOK_inject_erase deleteParams b u (by decide)]
  simp only [reqStr_ext _ _ hl, optStr_ext _ _ hl, boolWithD_ext _ _ hl]

theorem bindManage_inject_erase (b : Bag) (u : String) :
    bindManage ((b.eraseUserId).inject u) = bindManage (b.inject u) := by
  have hl := Bag.lookup_inject_eraseUserId b u
  unfold bindManage
  rw [keysOK_inject_erase manageParams b u (by decide)]
  simp only [reqStr_ext _ _ hl, optStr_ext _ _ hl]

/-!  ## Claims -/

/-- C1: the effective identity of every dispatched tool invocation is the
transport-authenticated one. For any operation name, any raw argument bag
and any adversarial `user_id` value the bag may carry, `execute_tool` with
authenticated identity `uid` produces the same store and the same result as
it does on the bag with every `user_id` field removed — the injected
identity always overwrites the model-supplied field — and the argument
dictionary from which the runner records the action input reduces, after
its identity-stripping comprehension, to the bag without any identity
field. -/
theorem executeTool_identity_injected (tool_name : String) (b : Bag) (uid : String)
    (now : Nat) (s : Store) :
    (executeTool tool_name b uid now s).store
        = (executeTool tool_name b.eraseUserId uid now s).store ∧
    (executeTool tool_name b uid now s).result
        = (executeTool tool_name b.eraseUserId uid now s).result ∧
    (executeTool tool_name b uid now s).args.eraseUserId = b.eraseUserId := by
  by_cases hc : TOOL_NAMES.contains tool_name = true
  · simp only [executeTool, hc, if_true,
      bindAdd_inject_erase, bindList_inject_erase, bindComplete_inject_erase,
      bindUpdate_inject_erase, bindDelete_inject_erase, bindManage_inject_erase,
      Bag.eraseUserId_inject]
    exact ⟨trivial, trivial, trivial⟩
  · simp only [executeTool, hc, if_false, Bool.false_eq_true]
    exact ⟨trivial, trivial, trivial⟩

theorem hasSuccessBool_failV (msg : String) : hasSuccessBool (failV msg) = true := by
  simp [hasSuccessBool, failV, Value.getField, Value.getField.go]

theorem add_task_structured (a : AddArgs) (now : Nat) (s : Store) :
    hasSuccessBool (add_task a now s).2 = true := by
  unfold add_task
  repeat' split
  all_goals simp [hasSuccessBool, failV, Value.getField, Value.getField.go]

theorem list_tasks_structured (a : ListArgs) (now : Nat) (s : Store) :
    hasSuccessBool (list_tasks a now s).2 = true := by
  unfold list_tasks
  repeat' split
  all_goals simp [hasSuccessBool, failV, Value.getField, Value.getField.go]

theorem completeFinish_structured (uid : String) (now : Nat) (s : Store) (task : Task) :
    hasSuccessBool (completeFinish uid now s task).2 = true := by
  unfold completeFinish
  split
  all_goals simp [hasSuccessBool, failV, Value.getField, Value.getField.go]

theorem updateApply_structured (a : UpdateArgs) (now : Nat) (s : Store) (task : Task) :
    hasSuccessBool (updateApply a now s task).2 = true := by
  unfold updateApply
  repeat' split
  all_goals simp [hasSuccessBool, failV, Value.getField, Value.getField.go]

theorem complete_task_structured (a : CompleteArgs) (now : Nat) (s : Store) :
    hasSuccessBool (complete_task a now s).2 = true := by
  unfold complete_task
  cases htid : truthyStr a.task_id with
  | some tid =>
      dsimp only
      cases hh : (s.tasks.filter (fun t => t.id == tid && t.user_id == a.user_id)).head? with
      | none => simp [hasSuccessBool, failV, Value.getField, Value.getField.go]
      | some task => exact completeFinish_structured _ _ _ _
  | none =>
      dsimp only
      cases htm : truthyStr a.title_match with
      | none => simp [hasSuccessBool, failV, Value.getField, Value.getField.go]
      | some pat =>
          dsimp only
          cases hc : completeCandidates s a.user_id pat with
          | nil => simp [hasSuccessBool, failV, Value.getField, Value.getField.go]
          | cons t rest =>
              cases rest with
              | nil => exact completeFinish_structured _ _ _ _
              | cons t₂ r₂ => simp [hasSuccessBool, failV, Value.getField, Value.getField.go]

theorem update_task_structured (a : UpdateArgs) (now : Nat) (s : Store) :
    hasSuccessBool (update_task a now s).2 = true := by
  unfold update_task
  cases htid : truthyStr a.task_id with
  | some tid =>
      dsimp only
      cases hh : (s.tasks.filter (fun t => t.id == tid && t.user_id == a.user_id)).head? with
      | none => simp [hasSuccessBool, failV, Value.getField, Value.getField.go]
      | some task => exact updateApply_structured _ _ _ _
  | none =>
      dsimp only
      cases htm : truthyStr a.title_match with
      | none => simp [hasSuccessBool, failV, Value.getField, Value.getField.go]
      | some pat =>
          dsimp only
          cases hc : s.tasks.filter (fun t => t.user_id == a.user_id && ilikeContains t.title pat) with
          | nil => simp [hasSuccessBool, failV, Value.getField, Value.getField.go]
          | cons t rest =>
              cases rest with
              | nil => exact updateApply_structured _ _ _ _
              | cons t₂ r₂ => simp [hasSuccessBool, failV, Value.getField, Value.getField.go]

theorem deleteFinish_structured (a : DeleteArgs) (s : Store) (victims : List Task) :
    hasSuccessBool (deleteFinish a s victims).2 = true := by
  simp [deleteFinish, hasSuccessBool, failV, Value.getField, Value.getField.go]

theorem delete_task_structured (a : DeleteArgs) (now : Nat) (s : Store) :
    hasSuccessBool (delete_task a now s).2 = true := by
  unfold delete_task
  by_cases hdc : a.delete_completed = true
  · simp only [hdc, if_true]
    exact deleteFinish_structured _ _ _
  · simp only [hdc, if_false, Bool.false_eq_true]
    cases htid : truthyStr a.task_id with
    | some tid =>
        dsimp only
        cases hh : (s.tasks.filter (fun t => t.id == tid && t.user_id == a.user_id)).head? with
        | none => simp [hasSuccessBool, failV, Value.getField, Value.getField.go]
        | some task => exact deleteFinish_structured _ _ _
    | none =>
        dsimp only
        cases htm : truthyStr a.title_match with
        | none => simp [hasSuccessBool, failV, Value.getField, Value.getField.go]
        | some pat =>
            dsimp only
            cases hc : s.tasks.filter (fun t => t.user_id == a.user_id && ilikeContains t.title pat) with
            | nil => simp [hasSuccessBool, failV, Value.getField, Value.getField.go]
            | cons t rest =>
                cases rest with
                | nil => exact deleteFinish_structured _ _ _
                | cons t₂ r₂ => simp [hasSuccessBool, failV, Value.getField, Value.getField.go]

theorem manage_tags_structured (a : ManageTagsArgs) (now : Nat) (s : Store) :
    hasSuccessBool (manage_tags a now s).2 = true := by
  unfold manage_tags
  repeat' split
  all_goals simp [hasSuccessBool, failV, Value.getField, Value.getField.go]

/-- C4: the Executor never raises past its boundary. For every operation
name (unknown ones included) and every argument bag, `execute_tool` is
total — it is a function in the model, and every branch, including the
exception conversion of a keyword-binding fault, yields a dictionary with
a boolean `success` discriminant — and an unknown operation name yields
the fixed failure result with the store untouched. -/
theorem executeTool_total_and_structured (tool_name : String) (b : Bag) (uid : String)
    (now : Nat) (s : Store) :
    hasSuccessBool (executeTool tool_name b uid now s).result = true ∧
    (TOOL_NAMES.contains tool_name = false →
      (executeTool tool_name b uid now s).store = s ∧
      (executeTool tool_name b uid now s).result = failV ("Unknown tool: " ++ tool_name)) := by
  by_cases hc : TOOL_NAMES.contains tool_name = true
  · constructor
    · simp only [executeTool, hc, if_true]
      repeat' split
      all_goals
        first
          | exact add_task_structured _ _ _
          | exact list_tasks_structured _ _ _
          | exact complete_task_structured _ _ _
          | exact update_task_structured _ _ _
          | exact delete_task_structured _ _ _
          | exact manage_tags_structured _ _ _
          | exact hasSuccessBool_failV _
    · intro h
      rw [h] at hc
      exact absurd hc (by simp)
  · have hm : ¬ tool_name ∈ TOOL_NAMES := by simpa using hc
    refine ⟨?_, fun _ => ⟨?_, ?_⟩⟩ <;>
      simp [executeTool, hm, hasSuccessBool_failV]

theorem executeTool_total_and_structured_witness :
    TOOL_NAMES.contains "frobnicate" = false ∧
    (executeTool "frobnicate" [] "u" 0 Store.empty).store = Store.empty ∧
    (executeTool "frobnicate" [] "u" 0 Store.empty).result
      = failV ("Unknown tool: " ++ "frobnicate") :=
  ⟨by decide,
   ((executeTool_total_and_structured "frobnicate" [] "u" 0 Store.empty).2 (by decide)).1,
   ((executeTool_total_and_structured "frobnicate" [] "u" 0 Store.empty).2 (by decide)).2⟩

theorem truthyStr_some {p : String} (h : p ≠ "") : truthyStr (some p) = some p := by
  unfold truthyStr
  split
  · next heq => exact absurd (by injection heq) h
  · rfl

/-- C2: fuzzy completion resolves its candidates among the identity's
pending tasks by case-insensitive substring match on the title. With no
candidate, `complete_task` fails with the no-match reason and the store is
untouched; with exactly one, it succeeds, marks that task completed and
returns it with refreshed counts; with two or more, it fails carrying the
full candidate list and performs no mutation. A non-empty pattern is
assumed, since Python truthiness routes an empty `title_match` to the
missing-selector failure instead. -/
theorem complete_task_fuzzy_resolution (uid pat : String) (now : Nat) (s : Store)
    (hpat : pat ≠ "") :
    (completeCandidates s uid pat = [] →
      complete_task { user_id := uid, task_id := none, title_match := some pat } now s
        = (s, failV ("No pending task found matching '" ++ pat ++ "'"))) ∧
    (∀ t, completeCandidates s uid pat = [t] →
      complete_task { user_id := uid, task_id := none, title_match := some pat } now s
        = (markCompleted s t.id now,
           Value.obj [
             ("success", .bool true),
             ("task", taskToDict { t with completed := true, updated_at := now }
               (markCompleted s t.id now)),
             ("pending_count", .int (pendingCount ((markCompleted s t.id now).userTasks uid))),
             ("completed_count",
               .int (completedCount ((markCompleted s t.id now).userTasks uid)))])) ∧
    (2 ≤ (completeCandidates s uid pat).length →
      complete_task { user_id := uid, task_id := none, title_match := some pat } now s
        = (s, Value.obj [
            ("success", .bool false),
            ("error", .str ("Multiple tasks match '" ++ pat ++ "'. Please be more specific.")),
            ("matches", .list ((completeCandidates s uid pat).map (fun t =>
              .obj [("id", .str t.id), ("title", .str t.title)])))])) := by
  refine ⟨?_, ?_, ?_⟩
  · intro h0
    unfold complete_task
    rw [show truthyStr (none : Option String) = none from rfl]
    dsimp only
    rw [truthyStr_some hpat]
    dsimp only
    rw [h0]
  · intro t ht
    have hmem : t ∈ completeCandidates s uid pat := by
      rw [ht]; exact List.mem_singleton_self t
    have hcomp : t.completed = false := by
      unfold completeCandidates at hmem
      have hp := List.of_mem_filter hmem
      simp only [Bool.and_eq_true, Bool.not_eq_true'] at hp
      exact hp.2
    unfold complete_task
    rw [show truthyStr (none : Option String) = none from rfl]
    dsimp only
    rw [truthyStr_some hpat]
    dsimp only
    rw [ht]
    dsimp only
    unfold completeFinish
    simp only [hcomp, Bool.false_eq_true, if_false]
  · intro h2
    unfold complete_task
    rw [show truthyStr (none : Option String) = none from rfl]
    dsimp only
    rw [truthyStr_some hpat]
    dsimp only
    cases hc : completeCandidates s uid pat with
    | nil => rw [hc] at h2; simp at h2
    | cons t rest =>
        cases rest with
        | nil => rw [hc] at h2; simp at h2
        | cons t₂ r₂ => rfl

theorem complete_task_fuzzy_resolution_witness :
    ("buy milk" : String) ≠ "" ∧
    (completeCandidates Store.empty "u" "buy milk" = [] ∧
      complete_task { user_id := "u", task_id := none, title_match := some "buy milk" } 1 Store.empty
        = (Store.empty, failV ("No pending task found matching '" ++ "buy milk" ++ "'"))) ∧
    (completeCandidates buyMilkStore "u" "buy milk" = [buyMilkTask] ∧
      complete_task { user_id := "u", task_id := none, title_match := some "buy milk" } 1 buyMilkStore
        = (markCompleted buyMilkStore buyMilkTask.id 1,
           Value.obj [
             ("success", .bool true),
             ("task", taskToDict { buyMilkTask with completed := true, updated_at := 1 }
               (markCompleted buyMilkStore buyMilkTask.id 1)),
             ("pending_count",
               .int (pendingCount ((markCompleted buyMilkStore buyMilkTask.id 1).userTasks "u"))),
             ("completed_count",
               .int (completedCount ((markCompleted buyMilkStore buyMilkTask.id 1).userTasks "u")))])) ∧
    (2 ≤ (completeCandidates callStore "u" "call").length ∧
      complete_task { user_id := "u", task_id := none, title_match := some "call" } 2 callStore
        = (callStore, Value.obj [
            ("success", .bool false),
            ("error", .str ("Multiple tasks match '" ++ "call" ++ "'. Please be more specific.")),
            ("matches", .list ((completeCandidates callStore "u" "call").map (fun t =>
              .obj [("id", .str t.id), ("title", .str t.title)])))])) :=
  ⟨by decide,
   ⟨by decide,
    (complete_task_fuzzy_resolution "u" "buy milk" 1 Store.empty (by decide)).1 (by decide)⟩,
   ⟨by decide,
    (complete_task_fuzzy_resolution "u" "buy milk" 1 buyMilkStore (by decide)).2.1
      buyMilkTask (by decide)⟩,
   ⟨by decide,
    (complete_task_fuzzy_resolution "u" "call" 2 callStore (by decide)).2.2 (by decide)⟩⟩

theorem agentLoop_always_tools (model : ChatModel) (uid : String) (now : Nat)
    (h : ∀ msgs, ∃ c tc tcs, model msgs = .reply c (tc :: tcs)) :
    ∀ fuel st, agentLoop model uid now fuel st
      = (iterationCapMsg, (roundsState model uid now fuel st).actions,
         (roundsState model uid now fuel st).store) := by
  intro fuel
  induction fuel with
  | zero => intro st; rfl
  | succ n ih =>
      intro st
      obtain ⟨c, tc, tcs, hm⟩ := h st.msgs
      simp only [agentLoop, roundsState, hm]
      exact ih _

/-- C3: the Conversation Loop performs at most 10 generate/dispatch
round-trips per turn. For a model that always requests another operation
and never emits final text, `_run_agent_direct` returns exactly the fixed
cap fallback message together with the actions accumulated by
`roundsState` over 10 rounds — a recursion performing exactly one generate
and one dispatch per step — so the loop terminates at the cap (in the
model, `agentLoop` is structurally recursive on its fuel, so it can never
loop indefinitely). -/
theorem runAgentDirect_iteration_cap (model : ChatModel) (messages : List Msg)
    (uid : String) (now : Nat) (s : Store)
    (h : ∀ msgs, ∃ c tc tcs, model msgs = .reply c (tc :: tcs)) :
    runAgentDirect model messages uid now s
      = (iterationCapMsg,
         (roundsState model uid now 10 (seedState messages s)).actions,
         (roundsState model uid now 10 (seedState messages s)).store) := by
  unfold runAgentDirect
  exact agentLoop_always_tools model uid now h 10 (seedState messages s)

theorem runAgentDirect_iteration_cap_witness :
    (∀ msgs, ∃ c tc tcs, alwaysCallModel msgs = .reply c (tc :: tcs)) ∧
    runAgentDirect alwaysCallModel [] "u" 0 Store.empty
      = (iterationCapMsg,
         (roundsState alwaysCallModel "u" 0 10 (seedState [] Store.empty)).actions,
         (roundsState alwaysCallModel "u" 0 10 (seedState [] Store.empty)).store) ∧
    (runAgentDirect alwaysCallModel [] "u" 0 Store.empty).2.1.length = 10 :=
  ⟨fun _ => ⟨none, ⟨"call-1", "list_tasks", some []⟩, [], rfl⟩,
   runAgentDirect_iteration_cap alwaysCallModel [] "u" 0 Store.empty
     (fun _ => ⟨none, ⟨"call-1", "list_tasks", some []⟩, [], rfl⟩),
   by
     rw [runAgentDirect_iteration_cap alwaysCallModel [] "u" 0 Store.empty
       (fun _ => ⟨none, ⟨"call-1", "list_tasks", some []⟩, [], rfl⟩)]
     rfl⟩

/-- C5 (counterexample): a successful `update_task` — a mutating
operation — returns a result carrying no `pending_count` and no
`completed_count` field at all, refuting the claim that every mutating
operation returns the aggregate counts. -/
theorem update_task_returns_no_counts :
    (update_task { user_id := "u", task_id := some "id-0", new_title := some "new" }
        1 buyMilkStore).2.getField "success" = some (.bool true) ∧
    (update_task { user_id := "u", task_id := some "id-0", new_title := some "new" }
        1 buyMilkStore).2.getField "pending_count" = none ∧
    (update_task { user_id := "u", task_id := some "id-0", new_title := some "new" }
        1 buyMilkStore).2.getField "completed_count" = none := by
  decide

theorem completeFinish_counts (uid : String) (now : Nat) (s : Store) (task : Task)
    (hsucc : (completeFinish uid now s task).2.getField "success" = some (.bool true)) :
    (completeFinish uid now s task).2.getField "pending_count"
      = some (.int (pendingCount ((completeFinish uid now s task).1.userTasks uid))) ∧
    (completeFinish uid now s task).2.getField "completed_count"
      = some (.int (completedCount ((completeFinish uid now s task).1.userTasks uid))) := by
  unfold completeFinish at hsucc ⊢
  by_cases hcomp : task.completed = true
  · simp [hcomp, failV, Value.getField, Value.getField.go] at hsucc
  · simp [hcomp, Value.getField, Value.getField.go]

theorem deleteFinish_counts (a : DeleteArgs) (s : Store) (victims : List Task) :
    (deleteFinish a s victims).2.getField "pending_count"
      = some (.int (pendingCount ((deleteFinish a s victims).1.userTasks a.user_id))) ∧
    (deleteFinish a s victims).2.getField "completed_count"
      = some (.int (completedCount ((deleteFinish a s victims).1.userTasks a.user_id))) := by
  simp [deleteFinish, Value.getField, Value.getField.go]

/-- C5 (amended): the mutating operations `add`, `complete` and `delete`
recompute and return the identity's aggregate pending/completed counts
from the post-mutation store alongside their specific result payloads;
`update` is the exception, returning the task snapshot and a changes
dictionary without counts. -/
theorem mutating_counts_refreshed :
    (∀ (a : AddArgs) (now : Nat) (s : Store),
      (add_task a now s).2.getField "success" = some (.bool true) →
      (add_task a now s).2.getField "pending_count"
        = some (.int (pendingCount ((add_task a now s).1.userTasks a.user_id))) ∧
      (add_task a now s).2.getField "completed_count"
        = some (.int (completedCount ((add_task a now s).1.userTasks a.user_id)))) ∧
    (∀ (a : CompleteArgs) (now : Nat) (s : Store),
      (complete_task a now s).2.getField "success" = some (.bool true) →
      (complete_task a now s).2.getField "pending_count"
        = some (.int (pendingCount ((complete_task a now s).1.userTasks a.user_id))) ∧
      (complete_task a now s).2.getField "completed_count"
        = some (.int (completedCount ((complete_task a now s).1.userTasks a.user_id)))) ∧
    (∀ (a : DeleteArgs) (now : Nat) (s : Store),
      (delete_task a now s).2.getField "success" = some (.bool true) →
      (delete_task a now s).2.getField "pending_count"
        = some (.int (pendingCount ((delete_task a now s).1.userTasks a.user_id))) ∧
      (delete_task a now s).2.getField "completed_count"
        = some (.int (completedCount ((delete_task a now s).1.userTasks a.user_id)))) := by
  refine ⟨?_, ?_, ?_⟩
  · intro a now s hsucc
    unfold add_task at hsucc ⊢
    cases hp : parseDueDate a.due_date with
    | error d =>
        rw [hp] at hsucc
        simp [failV, Value.getField, Value.getField.go] at hsucc
    | ok due => simp [Value.getField, Value.getField.go]
  · intro a now s hsucc
    unfold complete_task at hsucc ⊢
    cases htid : truthyStr a.task_id with
    | some tid =>
        rw [htid] at hsucc
        dsimp only at hsucc ⊢
        cases hh : (s.tasks.filter (fun t => t.id == tid && t.user_id == a.user_id)).head? with
        | none =>
            rw [hh] at hsucc
            simp [failV, Value.getField, Value.getField.go] at hsucc
        | some task =>
            rw [hh] at hsucc
            exact completeFinish_counts _ _ _ _ hsucc
    | none =>
        rw [htid] at hsucc
        dsimp only at hsucc ⊢
        cases htm : truthyStr a.title_match with
        | none =>
            rw [htm] at hsucc
            simp [failV, Value.getField, Value.getField.go] at hsucc
        | some pat =>
            rw [htm] at hsucc
            dsimp only at hsucc ⊢
            cases hc : completeCandidates s a.user_id pat with
            | nil =>
                rw [hc] at hsucc
                simp [failV, Value.getField, Value.getField.go] at hsucc
            | cons t rest =>
                cases rest with
                | nil =>
                    rw [hc] at hsucc
                    exact completeFinish_counts _ _ _ _ hsucc
                | cons t₂ r₂ =>
                    rw [hc] at hsucc
                    simp [failV, Value.getField, Value.getField.go] at hsucc
  · intro a now s hsucc
    unfold delete_task at hsucc ⊢
    by_cases hdc : a.delete_completed = true
    · simp only [hdc, if_true] at hsucc ⊢
      exact deleteFinish_counts _ _ _
    · simp only [hdc, if_false, Bool.false_eq_true] at hsucc ⊢
      cases htid : truthyStr a.task_id with
      | some tid =>
          rw [htid] at hsucc
          dsimp only at hsucc ⊢
          cases hh : (s.tasks.filter (fun t => t.id == tid && t.user_id == a.user_id)).head? with
          | none =>
              rw [hh] at hsucc
              simp [failV, Value.getField, Value.getField.go] at hsucc
          | some task => exact deleteFinish_counts _ _ _
      | none =>
          rw [htid] at hsucc
          dsimp only at hsucc ⊢
          cases htm : truthyStr a.title_match with
          | none =>
              rw [htm] at hsucc
              simp [failV, Value.getField, Value.getField.go] at hsucc
          | some pat =>
              rw [htm] at hsucc
              dsimp only at hsucc ⊢
              cases hc : s.tasks.filter
                  (fun t => t.user_id == a.user_id && ilikeContains t.title pat) with
              | nil =>
                  rw [hc] at hsucc
                  simp [failV, Value.getField, Value.getField.go] at hsucc
              | cons t rest =>
                  cases rest with
                  | nil => exact deleteFinish_counts _ _ _
                  | cons t₂ r₂ =>
                      rw [hc] at hsucc
                      simp [failV, Value.getField, Value.getField.go] at hsucc

theorem mutating_counts_refreshed_witness :
    ((add_task { title := "t", user_id := "u" } 0 Store.empty).2.getField "success"
        = some (.bool true) ∧
      (add_task { title := "t", user_id := "u" } 0 Store.empty).2.getField "pending_count"
        = some (.int (pendingCount
            ((add_task { title := "t", user_id := "u" } 0 Store.empty).1.userTasks "u"))) ∧
      (add_task { title := "t", user_id := "u" } 0 Store.empty).2.getField "completed_count"
        = some (.int (completedCount
            ((add_task { title := "t", user_id := "u" } 0 Store.empty).1.userTasks "u")))) ∧
    ((complete_task { user_id := "u", task_id := some "id-0" } 1 buyMilkStore).2.getField "success"
        = some (.bool true) ∧
      (complete_task { user_id := "u", task_id := some "id-0" } 1 buyMilkStore).2.getField
          "pending_count"
        = some (.int (pendingCount
            ((complete_task { user_id := "u", task_id := some "id-0" } 1
              buyMilkStore).1.userTasks "u"))) ∧
      (complete_task { user_id := "u", task_id := some "id-0" } 1 buyMilkStore).2.getField
          "completed_count"
        = some (.int (completedCount
            ((complete_task { user_id := "u", task_id := some "id-0" } 1
              buyMilkStore).1.userTasks "u")))) ∧
    ((delete_task { user_id := "u", task_id := some "id-0" } 1 buyMilkStore).2.getField "success"
        = some (.bool true) ∧
      (delete_task { user_id := "u", task_id := some "id-0" } 1 buyMilkStore).2.getField
          "pending_count"
        = some (.int (pendingCount
            ((delete_task { user_id := "u", task_id := some "id-0" } 1
              buyMilkStore).1.userTasks "u"))) ∧
      (delete_task { user_id := "u", task_id := some "id-0" } 1 buyMilkStore).2.getField
          "completed_count"
        = some (.int (completedCount
            ((delete_task { user_id := "u", task_id := some "id-0" } 1
              buyMilkStore).1.userTasks "u")))) :=
  ⟨⟨by decide,
    mutating_counts_refreshed.1 { title := "t", user_id := "u" } 0 Store.empty (by decide)⟩,
   ⟨by decide,
    mutating_counts_refreshed.2.1 { user_id := "u", task_id := some "id-0" } 1 buyMilkStore
      (by decide)⟩,
   ⟨by decide,
    mutating_counts_refreshed.2.2 { user_id := "u", task_id := some "id-0" } 1 buyMilkStore
      (by decide)⟩⟩

/-- C6 (counterexample): a priority value outside \x7b1, 2, 3\x7d is not
rejected anywhere on the tool path — `execute_tool`-dispatched `add_task`
with priority 5 returns success and stores the task with priority 5 (the
`enum` in the tool schema is advisory to the model only, and the handlers
perform no priority check). -/
theorem add_task_accepts_invalid_priority :
    (executeTool "add_task" [("title", .str "x"), ("priority", .int 5)]
        "u" 0 Store.empty).result.getField "success" = some (.bool true) ∧
    (executeTool "add_task" [("title", .str "x"), ("priority", .int 5)]
        "u" 0 Store.empty).store.tasks.map Task.priority = [some 5] := by
  decide

/-- C6 (amended): each concrete operation validates its own argument
subset locally and returns a failure result with a specific reason string:
an unparseable due-date string is rejected by `add_task`, and a
mutate/delete call supplying none of \x7btask id, fuzzy title match, bulk
flag\x7d is rejected by `complete`/`update`/`delete` — all as recoverable
failure results with the store untouched, never as raised errors. A
priority value outside \x7b1, 2, 3\x7d, however, is not validated and is
accepted unchanged. -/
theorem argument_validation_failure_results :
    (∀ (a : AddArgs) (now : Nat) (s : Store) (d : String),
      truthyStr a.due_date = some d →
      fromisoformat (replaceZ d) = none →
      add_task a now s = (s, failV ("Invalid due_date format: " ++ d))) ∧
    (∀ (a : CompleteArgs) (now : Nat) (s : Store),
      truthyStr a.task_id = none → truthyStr a.title_match = none →
      complete_task a now s = (s, failV "Must provide task_id or title_match")) ∧
    (∀ (a : UpdateArgs) (now : Nat) (s : Store),
      truthyStr a.task_id = none → truthyStr a.title_match = none →
      update_task a now s = (s, failV "Must provide task_id or title_match")) ∧
    (∀ (a : DeleteArgs) (now : Nat) (s : Store),
      a.delete_completed = false →
      truthyStr a.task_id = none → truthyStr a.title_match = none →
      delete_task a now s
        = (s, failV "Must provide task_id, title_match, or delete_completed=true")) := by
  refine ⟨?_, ?_, ?_, ?_⟩
  · intro a now s d h1 h2
    unfold add_task parseDueDate
    rw [h1]
    dsimp only
    rw [h2]
  · intro a now s h1 h2
    unfold complete_task
    rw [h1]
    dsimp only
    rw [h2]
  · intro a now s h1 h2
    unfold update_task
    rw [h1]
    dsimp only
    rw [h2]
  · intro a now s h0 h1 h2
    unfold delete_task
    simp only [h0, if_false, Bool.false_eq_true]
    rw [h1]
    dsimp only
    rw [h2]

theorem argument_validation_failure_results_witness :
    (truthyStr (some "not-a-date") = some "not-a-date" ∧
      fromisoformat (replaceZ "not-a-date") = none ∧
      add_task { title := "x", user_id := "u", due_date := some "not-a-date" } 0 Store.empty
        = (Store.empty, failV ("Invalid due_date format: " ++ "not-a-date"))) ∧
    (complete_task { user_id := "u" } 0 buyMilkStore
        = (buyMilkStore, failV "Must provide task_id or title_match")) ∧
    (update_task { user_id := "u" } 0 buyMilkStore
        = (buyMilkStore, failV "Must provide task_id or title_match")) ∧
    (delete_task { user_id := "u" } 0 buyMilkStore
        = (buyMilkStore, failV "Must provide task_id, title_match, or delete_completed=true")) :=
  ⟨⟨by decide, by decide,
    argument_validation_failure_results.1
      { title := "x", user_id := "u", due_date := some "not-a-date" } 0 Store.empty
      "not-a-date" (by decide) (by decide)⟩,
   argument_validation_failure_results.2.1 { user_id := "u" } 0 buyMilkStore
     (by decide) (by decide),
   argument_validation_failure_results.2.2.1 { user_id := "u" } 0 buyMilkStore
     (by decide) (by decide),
   argument_validation_failure_results.2.2.2 { user_id := "u" } 0 buyMilkStore
     (by decide) (by decide) (by decide)⟩

/-- C7 (counterexample): after "buy milk" has been completed once, a
second `complete(title_match="buy milk")` fails with the no-pending-match
reason, not with "already completed" — the fuzzy resolver only considers
pending tasks, so a completed task is simply never a candidate. -/
theorem complete_twice_not_already_completed :
    buyMilkCompletedTwice.2
      = failV ("No pending task found matching '" ++ "buy milk" ++ "'") ∧
    buyMilkCompletedTwice.2.getField "error"
      ≠ some (.str ("Task '" ++ "buy milk" ++ "' is already completed")) := by
  decide

/-- C7 (amended): in the add/complete/complete-again scenario for
"buy milk", the add succeeds and brings `pending_count` to 1; the first
fuzzy complete succeeds, bringing `pending_count` to 0 and
`completed_count` to 1; the second fuzzy complete returns a failure result
whose reason is the no-pending-match message (since fuzzy matching is
scoped to pending tasks), not "already completed". -/
theorem buy_milk_scenario :
    ((add_task { title := "buy milk", user_id := "u", priority := some 1 } 0 Store.empty).2.getField
        "success" = some (.bool true) ∧
      (add_task { title := "buy milk", user_id := "u", priority := some 1 } 0
          Store.empty).2.getField "pending_count" = some (.int 1) ∧
      (add_task { title := "buy milk", user_id := "u", priority := some 1 } 0
          Store.empty).2.getField "completed_count" = some (.int 0)) ∧
    (buyMilkCompleted.2.getField "success" = some (.bool true) ∧
      buyMilkCompleted.2.getField "pending_count" = some (.int 0) ∧
      buyMilkCompleted.2.getField "completed_count" = some (.int 1)) ∧
    (buyMilkCompletedTwice.2.getField "success" = some (.bool false) ∧
      buyMilkCompletedTwice.2.getField "error"
        = some (.str ("No pending task found matching '" ++ "buy milk" ++ "'"))) := by
  decide

theorem mem_insertSorted {α : Type} (le : α → α → Bool) (x y : α) :
    ∀ l, y ∈ insertSorted le x l ↔ y = x ∨ y ∈ l := by
  intro l
  induction l with
  | nil => simp [insertSorted]
  | cons a l ih =>
      unfold insertSorted
      by_cases h : le x a = true
      · simp [h]
      · simp only [h, if_false, Bool.false_eq_true, List.mem_cons, ih]
        tauto

theorem mem_sortByB {α : Type} (le : α → α → Bool) (y : α) :
    ∀ l, y ∈ sortByB le l ↔ y ∈ l := by
  intro l
  induction l with
  | nil => simp [sortByB]
  | cons a l ih =>
      show y ∈ insertSorted le a (sortByB le l) ↔ _
      rw [mem_insertSorted, ih]
      simp [List.mem_cons]

theorem sortByB_strict_max {α : Type} (le : α → α → Bool) (x : α) :
    ∀ l, x ∈ l → le x x = true →
    (∀ y ∈ l, y = x ∨ (le x y = true ∧ le y x = false)) →
    ∃ rest, sortByB le l = x :: rest := by
  intro l
  induction l with
  | nil => intro h; cases h
  | cons a l ih =>
      intro hmem hxx h
      show ∃ rest, insertSorted le a (sortByB le l) = x :: rest
      by_cases hxl : x ∈ l
      · obtain ⟨r, hr⟩ := ih hxl hxx (fun y hy => h y (List.mem_cons_of_mem _ hy))
        rw [hr]
        unfold insertSorted
        rcases h a (List.mem_cons_self a l) with ha | ⟨_, hax⟩
        · subst ha
          rw [if_pos hxx]
          exact ⟨a :: r, rfl⟩
        · rw [if_neg (by simp [hax])]
          exact ⟨insertSorted le a r, rfl⟩
      · have hx : x = a := by
          rcases List.mem_cons.mp hmem with h' | h'
          · exact h'
          · exact absurd h' hxl
        subst hx
        cases hsl : sortByB le l with
        | nil => exact ⟨[], rfl⟩
        | cons m ms =>
            have hm : m ∈ l := (mem_sortByB le m l).mp (hsl ▸ List.mem_cons_self m ms)
            have hmx : ¬ m = x := fun he => hxl (he ▸ hm)
            rcases h m (List.mem_cons_of_mem _ hm) with hme | ⟨hxm, _⟩
            · exact absurd hme hmx
            · unfold insertSorted
              rw [if_pos hxm]
              exact ⟨m :: ms, rfl⟩

theorem getOrCreateTag_tasks (s : Store) (tagName uid : String) :
    (getOrCreateTag s tagName uid).2.tasks = s.tasks := by
  unfold getOrCreateTag Store.freshId
  split <;> rfl

theorem attachTags_tasks (tid uid : String) (names : List String) :
    ∀ s : Store, (attachTags tid uid names s).tasks = s.tasks := by
  induction names with
  | nil => intro s; rfl
  | cons n ns ih =>
      intro s
      show (attachTags tid uid ns _).tasks = s.tasks
      rw [ih]
      exact getOrCreateTag_tasks s n uid

theorem add_task_ok_tasks (a : AddArgs) (now : Nat) (s : Store) (due : Option Nat)
    (hp : parseDueDate a.due_date = .ok due) :
    (add_task a now s).1.tasks = s.tasks ++ [freshTaskOf a now s due] := by
  unfold add_task
  rw [hp]
  dsimp only [Store.freshId]
  cases htg : truthyList a.tags with
  | some names => rw [attachTags_tasks]; rfl
  | none => rfl

theorem list_tasks_default_contains (uid : String) (now' : Nat) (S : Store) (x : Task)
    (hx : x ∈ S.tasks) (hux : x.user_id = uid)
    (hmax : ∀ y ∈ S.tasks, y.user_id = uid → y = x ∨ y.created_at < x.created_at) :
    ∃ L, (list_tasks { user_id := uid } now' S).2.getField "tasks" = some (.list L) ∧
      taskToDict x S ∈ L := by
  have hbase : x ∈ S.userTasks uid := by
    unfold Store.userTasks
    exact List.mem_filter.mpr ⟨hx, by simp [hux]⟩
  have hsorted : ∃ rest,
      sortByB (fun p q => taskLE "created_at" q p) (S.userTasks uid) = x :: rest := by
    apply sortByB_strict_max
    · exact hbase
    · simp [taskLE]
    · intro y hy
      have hyS : y ∈ S.tasks := (List.mem_filter.mp hy).1
      have hyu : y.user_id = uid := by
        have := (List.mem_filter.mp hy).2
        simpa using this
      rcases hmax y hyS hyu with h | h
      · exact Or.inl h
      · exact Or.inr ⟨by simp [taskLE, Nat.le_of_lt h], by simp [taskLE, Nat.not_le.mpr h]⟩
  obtain ⟨rest, hrest⟩ := hsorted
  refine ⟨((x :: rest).take (50 : Int).toNat).map (fun t => taskToDict t S), ?_, ?_⟩
  · unfold list_tasks
    dsimp only
    rw [show truthyStr (none : Option String) = none from rfl]
    dsimp only
    unfold sortTasks
    rw [if_neg (by decide : ¬ (("all" : String) = "pending")),
      if_neg (by decide : ¬ (("all" : String) = "completed")),
      if_neg (by decide : ¬ ((none : Option Bool) = some true)),
      if_neg (by decide : ¬ (("desc" : String) = "asc")), hrest]
    simp [Value.getField, Value.getField.go]
  · refine List.mem_map_of_mem _ ?_
    rw [show ((50 : Int).toNat) = (49 + 1 : Nat) from rfl, List.take_succ_cons]
    exact List.mem_cons_self _ _

/-- C9: round-trip. For any identity, a successful `add` followed by a
`list` with all filters at their defaults (status `all`, no
priority/tag/search/overdue filter, sort `created_at` descending) returns
a task list containing the just-added task, with the same title and
`completed = false`. The freshness hypothesis — every existing row was
created strictly before `now` — reflects the strictly increasing wall
clock and keeps the new row inside the 50-row page. -/
theorem add_then_list_roundtrip (a : AddArgs) (now now' : Nat) (s : Store)
    (hwf : ∀ t ∈ s.tasks, t.created_at < now)
    (hok : (add_task a now s).2.getField "success" = some (.bool true)) :
    ∃ L, (list_tasks { user_id := a.user_id } now' (add_task a now s).1).2.getField "tasks"
        = some (.list L) ∧
      ∃ v ∈ L, v.getField "title" = some (.str a.title) ∧
        v.getField "completed" = some (.bool false) := by
  cases hp : parseDueDate a.due_date with
  | error d =>
      exfalso
      unfold add_task at hok
      rw [hp] at hok
      simp [failV, Value.getField, Value.getField.go] at hok
  | ok due =>
      have htasks := add_task_ok_tasks a now s due hp
      set S := (add_task a now s).1 with hS
      set newTask : Task := freshTaskOf a now s due with hnew
      obtain ⟨L, hL, hmem⟩ := list_tasks_default_contains a.user_id now' S newTask
        (by rw [htasks]; exact List.mem_append_right _ (List.mem_singleton_self _))
        rfl
        (by
          intro y hy hyu
          rw [htasks] at hy
          rcases List.mem_append.mp hy with h | h
          · exact Or.inr (hwf y h)
          · exact Or.inl (List.mem_singleton.mp h))
      refine ⟨L, hL, taskToDict newTask S, hmem, ?_, ?_⟩ <;>
        simp [hnew, freshTaskOf, taskToDict, Value.getField, Value.getField.go]

theorem add_then_list_roundtrip_witness :
    (∀ t ∈ Store.empty.tasks, t.created_at < 0) ∧
    (add_task { title := "buy milk", user_id := "u" } 0 Store.empty).2.getField "success"
      = some (.bool true) ∧
    ∃ L, (list_tasks { user_id := "u" } 1
            (add_task { title := "buy milk", user_id := "u" } 0 Store.empty).1).2.getField "tasks"
        = some (.list L) ∧
      ∃ v ∈ L, v.getField "title" = some (.str "buy milk") ∧
        v.getField "completed" = some (.bool false) :=
  ⟨(by intro t ht; cases ht), (by decide),
   add_then_list_roundtrip { title := "buy milk", user_id := "u" } 0 1 Store.empty
     (by intro t ht; cases ht) (by decide)⟩

/-- C10: `list_tasks` with a tag filter naming a tag that does not exist
for the identity returns, regardless of the identity's tasks and of the
other filters, a success result with an empty task list, a hard-coded
`total` of 0 and a message string — and no
`pending_count`/`completed_count`/`overdue_count` fields — rather than a
failure result. -/
theorem list_tasks_unknown_tag (a : ListArgs) (tname : String) (now : Nat) (s : Store)
    (htag : truthyStr a.tag = some tname)
    (hfind : s.tags.find? (fun tg => tg.name == tname && tg.user_id == a.user_id) = none) :
    list_tasks a now s
      = (s, .obj [("success", .bool true), ("tasks", .list []), ("total", .int 0),
          ("message", .str ("No tag named '" ++ tname ++ "' found"))]) ∧
    (list_tasks a now s).2.getField "pending_count" = none ∧
    (list_tasks a now s).2.getField "completed_count" = none ∧
    (list_tasks a now s).2.getField "overdue_count" = none := by
  have hmain : list_tasks a now s
      = (s, .obj [("success", .bool true), ("tasks", .list []), ("total", .int 0),
          ("message", .str ("No tag named '" ++ tname ++ "' found"))]) := by
    unfold list_tasks
    rw [htag]
    dsimp only
    rw [hfind]
  refine ⟨hmain, ?_, ?_, ?_⟩ <;>
    rw [hmain] <;> simp [Value.getField, Value.getField.go]

theorem list_tasks_unknown_tag_witness :
    buyMilkStore.tasks ≠ [] ∧
    truthyStr (some "ghost") = some "ghost" ∧
    buyMilkStore.tags.find? (fun tg => tg.name == "ghost" && tg.user_id == "u") = none ∧
    list_tasks { user_id := "u", tag := some "ghost" } 5 buyMilkStore
      = (buyMilkStore, .obj [("success", .bool true), ("tasks", .list []), ("total", .int 0),
          ("message", .str ("No tag named '" ++ "ghost" ++ "' found"))]) ∧
    (list_tasks { user_id := "u", tag := some "ghost" } 5 buyMilkStore).2.getField
        "pending_count" = none :=
  ⟨by decide, by decide, by decide,
   (list_tasks_unknown_tag { user_id := "u", tag := some "ghost" } "ghost" 5 buyMilkStore
     (by decide) (by decide)).1,
   (list_tasks_unknown_tag { user_id := "u", tag := some "ghost" } "ghost" 5 buyMilkStore
     (by decide) (by decide)).2.1⟩

theorem toolCallEvents_map_rank : ∀ (acts : List Action) (w : World),
    ((toolCallEvents w acts).1).map eventRank = List.replicate acts.length 2 := by
  intro acts
  induction acts with
  | nil => intro w; rfl
  | cons a rest ih =>
      intro w
      unfold toolCallEvents
      dsimp only
      rw [List.map_cons, ih]
      rfl

theorem toolCallEvents_payload : ∀ (acts : List Action) (w : World),
    ((toolCallEvents w acts).1).filterMap toolCallPayload
      = acts.map (fun a => (a.tool, a.input, a.result)) := by
  intro acts
  induction acts with
  | nil => intro w; rfl
  | cons a rest ih =>
      intro w
      unfold toolCallEvents
      dsimp only
      rw [List.filterMap_cons]
      simp [toolCallPayload, ih]

/-- C8: incremental-mode event ordering. For any turn (every turn of the
model is successful: the embedded agent is total), the emitted event
sequence is exactly: a `thread.created` (rank 0) precisely when the thread
is new, then the user `message.created` (rank 1), then one `tool_call`
event (rank 2) per dispatched operation — carried, in dispatch order, with
the recorded name, input and result — then the assistant `message.created`
(rank 3), the single `message.delta` with the full final text (rank 4),
`message.done` (rank 5), and the terminal `done` (rank 6). -/
theorem streamChatResponse_incremental_order (model : ChatModel)
    (message thread_id user_id : String) (now : Nat) (w : World) (ts : Store) :
    (streamChatResponse model message thread_id user_id now w ts).1.map eventRank
      = (if (w.conversations.find? (fun c => c.id == thread_id && c.user_id == user_id)).isNone
          then [0] else [])
        ++ 1 :: (List.replicate
            ((runAgentDirect model (historyMsgs w.messages thread_id ++ [Msg.user message])
              user_id now ts).2.1).length 2
          ++ [3, 4, 5, 6]) ∧
    (streamChatResponse model message thread_id user_id now w ts).1.filterMap toolCallPayload
      = ((runAgentDirect model (historyMsgs w.messages thread_id ++ [Msg.user message])
          user_id now ts).2.1).map (fun a => (a.tool, a.input, a.result)) := by
  cases hfind : w.conversations.find? (fun c => c.id == thread_id && c.user_id == user_id) with
  | none =>
      constructor
      · unfold streamChatResponse
        rw [hfind]
        dsimp only
        rw [List.map_append, List.map_append, List.map_append, List.map_append,
          toolCallEvents_map_rank]
        simp [eventRank, List.append_assoc]
      · unfold streamChatResponse
        rw [hfind]
        dsimp only
        rw [List.filterMap_append, List.filterMap_append, List.filterMap_append,
          List.filterMap_append, toolCallEvents_payload]
        simp [toolCallPayload]
  | some c =>
      have hc := List.find?_some hfind
      have hcid : c.id = thread_id := by
        simp only [Bool.and_eq_true, beq_iff_eq] at hc
        exact hc.1
      constructor
      · unfold streamChatResponse
        rw [hfind]
        dsimp only
        rw [hcid]
        rw [List.map_append, List.map_append, List.map_append, List.map_append,
          toolCallEvents_map_rank]
        simp [eventRank, List.append_assoc]
      · unfold streamChatResponse
        rw [hfind]
        dsimp only
        rw [hcid]
        rw [List.filterMap_append, List.filterMap_append, List.filterMap_append,
          List.filterMap_append, toolCallEvents_payload]
        simp [toolCallPayload]

end TodoCore
